import Mathlib

/-!
# Keyframed Bezier spline track, `TUiAnimSplineTrack<Vec2>`

A shallow embedding of
`dev/Gems/LyShine/Code/Source/Animation/AnimSplineTrack_Vec2Specialization.h`.

Conventions of the embedding

* A `float` value is modelled by the rational number it holds.  An addition of two `float`s
  rounds its exact sum to binary32 (`roundBinary32`, `fadd`), as the C++ `+` and `+=` do.
  Infinities and NaN are not modelled: a statement about a rounded sum is made for sums in
  the finite range (`finiteBinary32`).
* `int` key and track flags are modelled by the natural number holding their bit pattern.
* A member function `R C::f(args)` becomes `f : TUiAnimSplineTrack → args → R × TUiAnimSplineTrack`
  (only the components that the function can change are returned).  Out parameters are
  returned.
* A member function is embedded as it is compiled with `NDEBUG`, where `assert` expands to
  nothing; where an asserted index precondition fails the C++ behaviour is undefined and the
  model leaves the state unchanged.  The build in which `assert` is active is embedded by the
  functions named `..._call`: they yield a `CallOutcome`, which is `assertionFailed` as soon as
  an assertion of the call does not hold (`GetKey_call`, `SetKey_call`, `Serialize_call`,
  `SerializeSelection_call`).
* An XML node is a typed attribute bag: `getAttr` yields the stored value when the attribute is
  present and leaves its out parameter untouched otherwise.
* Everything this header uses but does not define (mask constants, the interpolator, the
  contents of storage that is read before it is written) is collected in `Externals`.
-/

namespace UiAnim

/-- The C++ `float`: a value is modelled by the rational number it holds. -/
abbrev float := ℚ

/-- The integer part of the binary logarithm of `n` (zero for `n = 0`), by repeated halving;
`fuel` bounds the number of halvings. -/
def log2Floor : Nat → Nat → Nat
  | 0, _ => 0
  | fuel + 1, n => if n < 2 then 0 else log2Floor fuel (n / 2) + 1

/-- The binary32 (IEEE 754 single precision) value nearest to the rational `x`, ties to the
even significand: the rounding of every `float` operation.  With `2 ^ e ≤ |x| < 2 ^ (e + 1)`
the result is the multiple of `2 ^ u` nearest to `x`, where `u = max e (-126) - 23` (a
significand of 24 bits, subnormal numbers below `2 ^ (-126)`).  Overflow is not modelled: the
result is the value that binary32 yields for `|x| < 2 ^ 128 - 2 ^ 103`. -/
def roundBinary32 (x : ℚ) : ℚ :=
  if x = 0 then 0
  else
    let n := x.num.natAbs
    let d := x.den
    let e0 : Int := (log2Floor n n : Int) - (log2Floor d d : Int)
    let e : Int :=
      if (if e0 < 0 then d ≤ n * 2 ^ (-e0).toNat else d * 2 ^ e0.toNat ≤ n) then e0 else e0 - 1
    let u : Int := max e (-126) - 23
    let N : Nat := if u < 0 then n * 2 ^ (-u).toNat else n
    let D : Nat := if u < 0 then d else d * 2 ^ u.toNat
    let q := N / D
    let r := N % D
    let k : Nat :=
      if 2 * r < D then q else if D < 2 * r then q + 1 else if q % 2 = 0 then q else q + 1
    let m : Int := if x < 0 then -(k : Int) else (k : Int)
    if u < 0 then mkRat m (2 ^ (-u).toNat) else mkRat (m * 2 ^ u.toNat) 1

/-- The `float` addition `a + b` of C++: the exact sum, rounded to binary32. -/
def fadd (a b : float) : float := roundBinary32 (a + b)

/-- The rational `x` rounds to a finite binary32 value: its magnitude is below
`2 ^ 128 - 2 ^ 103`, half a unit in the last place above the largest finite value. -/
def finiteBinary32 (x : ℚ) : Prop :=
  -(2 ^ 128 - 2 ^ 103) < x ∧ x < 2 ^ 128 - 2 ^ 103

instance finiteBinary32.decidable (x : ℚ) : Decidable (finiteBinary32 x) :=
  inferInstanceAs (Decidable (-(2 ^ 128 - 2 ^ 103) < x ∧ x < 2 ^ 128 - 2 ^ 103))

/-- The two-component vector `Vec2`. -/
structure Vec2 where
  x : float
  y : float
deriving DecidableEq, Repr

/-- The colour type `ColorB`, four byte channels. -/
structure ColorB where
  r : Nat
  g : Nat
  b : Nat
  a : Nat
deriving DecidableEq, Repr

/-- Modelled from the spec: the constructor `ColorB(unsigned int abgr)` of `Cry_Color.h`, which
decodes a packed-ABGR integer (red in the low byte). -/
def ColorB.ofAbgr (abgr : Nat) : ColorB :=
  { r := abgr % 256, g := (abgr / 256) % 256, b := (abgr / 65536) % 256,
    a := (abgr / 16777216) % 256 }

/-- Modelled from the spec: `ColorB::pack_abgr8888` of `Cry_Color.h`, the packed-ABGR
encoding of a colour. -/
def ColorB.pack_abgr8888 (c : ColorB) : Nat :=
  (c.a % 256) * 16777216 + (c.b % 256) * 65536 + (c.g % 256) * 256 + c.r % 256

/-- A key as stored by the spline, `Spline::key_type` (`SplineKeyEx<Vec2>`): the members this
header reads and writes.  The tangents `ds` and `dd` follow the data model of the spec, one
tangent magnitude each. -/
structure SplineKey where
  time : float
  flags : Nat
  value : Vec2
  ds : float
  dd : float
deriving DecidableEq, Repr

/-- Modelled from the spec: a default-constructed spline key, as `SetNumKeys` creates them
when the key count grows; every member is zero. -/
def SplineKey.zero : SplineKey :=
  { time := 0, flags := 0, value := ⟨0, 0⟩, ds := 0, dd := 0 }

/-- The key exchanged through the `IKey` interface, `I2DBezierKey`. -/
structure I2DBezierKey where
  time : float
  flags : Nat
  value : Vec2
deriving DecidableEq, Repr

/-- Modelled from the spec: the default constructor of `I2DBezierKey` (declared in a header
outside this file): time and flags are zero, and so is the value. -/
def I2DBezierKey.new : I2DBezierKey :=
  { time := 0, flags := 0, value := ⟨0, 0⟩ }

/-- What the header uses without defining it. -/
structure Externals where
  /-- The constant `SPLINE_KEY_TANGENT_IN_MASK`. -/
  SPLINE_KEY_TANGENT_IN_MASK : Nat
  /-- The constant `SPLINE_KEY_TANGENT_OUT_MASK`. -/
  SPLINE_KEY_TANGENT_OUT_MASK : Nat
  /-- The constant `SPLINE_KEY_TANGENT_UNIFY_MASK`. -/
  SPLINE_KEY_TANGENT_UNIFY_MASK : Nat
  /-- The flag bits that `SelectKey` sets and `IsKeySelected` tests. -/
  selectedMask : Nat
  /-- The enumerator `eUiAnimCurveType_BezierFloat`, as an integer. -/
  eUiAnimCurveType_BezierFloat : Int
  /-- The first component of what `m_spline->Interpolate(time, tmp)` stores in `tmp`, for
  the given key sequence. -/
  Interpolate : List SplineKey → float → float
  /-- The content of the local `int type` of `SerializeSelection` before it is assigned. -/
  indeterminateType : Int
  /-- The content of the local `unsigned int abgr` of `Serialize` before it is assigned. -/
  indeterminateAbgr : Nat
  /-- The member `m_customColor` of a track that never had a colour assigned. -/
  indeterminateColor : ColorB

/-- A child element of a track node, with the attributes the track reads and writes. -/
structure KeyNode where
  time : Option float
  value : Option Vec2
  flags : Option Nat
  ds : Option float
  dd : Option float
deriving DecidableEq, Repr

/-- The XML node of a track: its attributes and its child elements, in order. -/
structure XmlNode where
  Flags : Option Nat
  defaultValue : Option Vec2
  HasCustomColor : Option Bool
  CustomColor : Option Nat
  TrackType : Option Int
  children : List KeyNode
deriving DecidableEq, Repr

/-- A node without attributes and without children. -/
def XmlNode.empty : XmlNode :=
  { Flags := none, defaultValue := none, HasCustomColor := none, CustomColor := none,
    TrackType := none, children := [] }

/-- A child element without attributes, as `newChild` creates it. -/
def KeyNode.empty : KeyNode :=
  { time := none, value := none, flags := none, ds := none, dd := none }

/-- The call `node->getAttr(name, out)`: whether the attribute is present, and the new
content of `out`. -/
def getAttr {α : Type} (attr : Option α) (out : α) : Bool × α :=
  match attr with
  | some v => (true, v)
  | none => (false, out)

/-- The state of a `TUiAnimSplineTrack<Vec2>`: the keys of `m_spline` and the members the
header touches. -/
structure TUiAnimSplineTrack where
  m_spline : List SplineKey
  m_flags : Nat
  m_defaultValue : Vec2
  m_fMinKeyValue : float
  m_fMaxKeyValue : float
  m_bCustomColorSet : Bool
  m_customColor : ColorB
deriving DecidableEq, Repr

/-- The access `m_spline->key(i)` used as an assignable reference: key `i` is replaced by
`f` of itself. -/
def modifyKey (f : SplineKey → SplineKey) : List SplineKey → Nat → List SplineKey
  | [], _ => []
  | k :: ks, 0 => f k :: ks
  | k :: ks, i + 1 => k :: modifyKey f ks i

namespace TUiAnimSplineTrack

/-- The constructor `TUiAnimSplineTrack<Vec2>::TUiAnimSplineTrack()`. -/
def new (E : Externals) : TUiAnimSplineTrack :=
  { m_spline := [],
    m_flags := 0,
    m_defaultValue := ⟨0, 0⟩,
    m_fMinKeyValue := 0,
    m_fMaxKeyValue := 0,
    m_bCustomColorSet := false,
    m_customColor := E.indeterminateColor }

/-- The accessor `GetNumKeys()`. -/
def GetNumKeys (t : TUiAnimSplineTrack) : Int := t.m_spline.length

/-- The accessor `GetFlags()`. -/
def GetFlags (t : TUiAnimSplineTrack) : Nat := t.m_flags

/-- The mutator `SetFlags(flags)`. -/
def SetFlags (t : TUiAnimSplineTrack) (flags : Nat) : TUiAnimSplineTrack :=
  { t with m_flags := flags }

/-- Modelled from the spec: `SetNumKeys(numKeys)` of the class template, which sets the key
count: the first keys are kept and default-constructed keys are appended. -/
def SetNumKeys (t : TUiAnimSplineTrack) (numKeys : Nat) : TUiAnimSplineTrack :=
  { t with
    m_spline := t.m_spline.take numKeys ++
      List.replicate (numKeys - t.m_spline.length) SplineKey.zero }

/-- Modelled from the spec: `UpdateTrackValueRange(newValue)` of the class template, which
widens the value range to include the new value. -/
def UpdateTrackValueRange (t : TUiAnimSplineTrack) (newValue : float) : TUiAnimSplineTrack :=
  { t with
    m_fMinKeyValue := if newValue < t.m_fMinKeyValue then newValue else t.m_fMinKeyValue,
    m_fMaxKeyValue := if newValue > t.m_fMaxKeyValue then newValue else t.m_fMaxKeyValue }

/-- Modelled from the spec: `Invalidate()` of the class template marks derived state dirty;
no such state is part of the model. -/
def Invalidate (t : TUiAnimSplineTrack) : TUiAnimSplineTrack := t

/-- Modelled from the spec: `SelectKey(key, select)` of the class template, which sets or
clears the selection bits of a key. -/
def SelectKey (E : Externals) (t : TUiAnimSplineTrack) (key : Int) (select : Bool) :
    TUiAnimSplineTrack :=
  if 0 ≤ key ∧ key < t.GetNumKeys then
    { t with
      m_spline := modifyKey
        (fun k => { k with
          flags := if select then k.flags ||| E.selectedMask
                   else k.flags - (k.flags &&& E.selectedMask) })
        t.m_spline key.toNat }
  else t

/-- Modelled from the spec: the test behind `IsKeySelected`, whether a flags word has a
selection bit set. -/
def flagsSelected (E : Externals) (flags : Nat) : Bool :=
  flags &&& E.selectedMask != 0

/-- Modelled from the spec: `IsKeySelected(key)` of the class template. -/
def IsKeySelected (E : Externals) (t : TUiAnimSplineTrack) (key : Int) : Bool :=
  if 0 ≤ key ∧ key < t.GetNumKeys then
    match t.m_spline[key.toNat]? with
    | some k => flagsSelected E k.flags
    | none => false
  else false

/-- Modelled from the spec: `SortKeys()` of the class template, which re-sorts the key
sequence by time (keys of equal time keep their order). -/
def SortKeys (t : TUiAnimSplineTrack) : TUiAnimSplineTrack :=
  { t with
    m_spline := List.insertionSort (fun a b : SplineKey => a.time ≤ b.time) t.m_spline }

/-- Modelled from the spec: the sorted insertion behind `InsertKey`.  The key is put before
the first key of greater time; the index it gets and the new sequence are returned. -/
def insert_key (k : SplineKey) : List SplineKey → Nat × List SplineKey
  | [] => (0, [k])
  | a :: as =>
    if a.time > k.time then (0, k :: a :: as)
    else ((insert_key k as).1 + 1, a :: (insert_key k as).2)

/-- Modelled from the spec: `m_spline->InsertKey(time, tmp)` with `tmp[0] = value`: a new
key at `time` carrying the scalar `value` (its `x` mirrors the time), with zero flags and
zero tangents, is inserted so that a sorted sequence stays sorted; the new key's index is
returned. -/
def InsertKey (t : TUiAnimSplineTrack) (time : float) (value : float) :
    Int × TUiAnimSplineTrack :=
  let k : SplineKey := { time := time, flags := 0, value := ⟨time, value⟩, ds := 0, dd := 0 }
  (((insert_key k t.m_spline).1 : Nat), { t with m_spline := (insert_key k t.m_spline).2 })

/-- The function `GetValue(float time, float& value)`; the out parameter is returned. -/
def GetValue (E : Externals) (t : TUiAnimSplineTrack) (time : float) : float :=
  if t.GetNumKeys = 0 then
    t.m_defaultValue.y
  else
    E.Interpolate t.m_spline time

/-- The function `GetCurveType()`. -/
def GetCurveType (E : Externals) : Int := E.eUiAnimCurveType_BezierFloat

/-- The function `GetKey(int index, IKey* key)`; the key written through the pointer is
returned.  Outside the asserted index range the key is returned as it was passed. -/
def GetKey (t : TUiAnimSplineTrack) (index : Int) (key : I2DBezierKey) : I2DBezierKey :=
  if 0 ≤ index ∧ index < t.GetNumKeys then
    match t.m_spline[index.toNat]? with
    | some k => { key with time := k.time, flags := k.flags, value := k.value }
    | none => key
  else key

/-- The function `SetKey(int index, IKey* key)`.  Outside the asserted index range the track
is left as it is. -/
def SetKey (t : TUiAnimSplineTrack) (index : Int) (key : I2DBezierKey) :
    TUiAnimSplineTrack :=
  if 0 ≤ index ∧ index < t.GetNumKeys then
    let t1 := { t with
      m_spline := modifyKey
        (fun k => { k with time := key.time, flags := key.flags, value := key.value })
        t.m_spline index.toNat }
    Invalidate (UpdateTrackValueRange t1 key.value.y)
  else t

/-- The function `CreateKey(float time)`: the index of the new key and the new state. -/
def CreateKey (E : Externals) (t : TUiAnimSplineTrack) (time : float) :
    Int × TUiAnimSplineTrack :=
  let nkey := t.GetNumKeys
  let value := if nkey > 0 then GetValue E t time else t.m_defaultValue.y
  let t1 := UpdateTrackValueRange t value
  InsertKey t1 time value

/-- The function `CopyKey(IUiAnimTrack* pFromTrack, int nFromKey)`: the index of the new key
and the new state.  The source track is a track of this class; it may be the receiving track
itself, in its state before the call.  The literal `0.01f` is the binary32 value nearest to
1/100, and `key.time + timeOffset` is a `float` addition. -/
def CopyKey (E : Externals) (t : TUiAnimSplineTrack) (pFromTrack : TUiAnimSplineTrack)
    (nFromKey : Int) : Int × TUiAnimSplineTrack :=
  let timeOffset : float := roundBinary32 (1 / 100)
  let key := GetKey pFromTrack nFromKey I2DBezierKey.new
  let tm := fadd key.time timeOffset
  let r := CreateKey E t tm
  let key := { key with time := tm, value := ⟨tm, key.value.y⟩ }
  (r.1, SetKey r.2 r.1 key)

/-- Modelled from the spec: `SetKeyAtTime(time, key)` of the class template, which creates or
updates a key at `time`: a key that is at `time` already is overwritten in place (its flags
are kept), otherwise a key is created with `CreateKey` and then overwritten. -/
def SetKeyAtTime (E : Externals) (t : TUiAnimSplineTrack) (time : float)
    (key : I2DBezierKey) : TUiAnimSplineTrack :=
  let key := { key with time := time }
  match t.m_spline.findIdx? (fun k => decide (k.time = time)) with
  | some i =>
    match t.m_spline[i]? with
    | some k => SetKey t i { key with flags := k.flags }
    | none => t
  | none =>
    let r := CreateKey E t time
    match r.2.m_spline[r.1.toNat]? with
    | some k => SetKey r.2 r.1 { key with flags := k.flags }
    | none => r.2

/-- The function `SetValue(float time, const float& value, bool bDefault)`. -/
def SetValue (E : Externals) (t : TUiAnimSplineTrack) (time : float) (value : float)
    (bDefault : Bool) : TUiAnimSplineTrack :=
  if !bDefault then
    let key := { I2DBezierKey.new with value := ⟨time, value⟩ }
    SetKeyAtTime E t time key
  else
    { t with m_defaultValue := ⟨time, value⟩ }

/-- The body of the loading loop of `Serialize`, run for the child elements from index `i`
on: whether the loop ran to its end (`false` when it hit a `return false`), and the state
it left. -/
def Serialize_loadKeys (t : TUiAnimSplineTrack) (i : Nat) :
    List KeyNode → Bool × TUiAnimSplineTrack
  | [] => (true, t)
  | keyNode :: rest =>
    let key := I2DBezierKey.new
    let time := getAttr keyNode.time key.time
    if !time.1 then (false, t)
    else
      let key := { key with time := time.2 }
      let value := getAttr keyNode.value key.value
      if !value.1 then (false, t)
      else
        let key := { key with value := value.2 }
        let key := { key with flags := (getAttr keyNode.flags key.flags).2 }
        let t1 := SetKey t i key
        let ds := getAttr keyNode.ds (t1.m_spline.getD i SplineKey.zero).ds
        let t2 := { t1 with m_spline := modifyKey (fun k => { k with ds := ds.2 }) t1.m_spline i }
        if !ds.1 then (false, t2)
        else
          let dd := getAttr keyNode.dd (t2.m_spline.getD i SplineKey.zero).dd
          let t3 := { t2 with
            m_spline := modifyKey (fun k => { k with dd := dd.2 }) t2.m_spline i }
          if !dd.1 then (false, t3)
          else Serialize_loadKeys t3 (i + 1) rest

/-- The child element that the saving loop of `Serialize` writes for the key `key` read by
`GetKey` and the spline key `k` that `m_spline->key(i)` refers to. -/
def Serialize_keyNode (E : Externals) (key : I2DBezierKey) (k : SplineKey) : KeyNode :=
  let keyNode := KeyNode.empty
  let keyNode := { keyNode with time := some key.time }
  let keyNode := { keyNode with value := some key.value }
  let flags := key.flags
  let flags := flags &&&
    (E.SPLINE_KEY_TANGENT_IN_MASK ||| E.SPLINE_KEY_TANGENT_OUT_MASK |||
      E.SPLINE_KEY_TANGENT_UNIFY_MASK)
  let keyNode := if flags ≠ 0 then { keyNode with flags := some flags } else keyNode
  let keyNode := { keyNode with ds := some k.ds }
  { keyNode with dd := some k.dd }

/-- One round of the saving loop of `Serialize`, for key index `i`: the local `key` and the
node, before and after.  The verdict of `assert(key.time == key.value.x)` in this round is
`saveKey_assert`. -/
def Serialize_saveKey (E : Externals) (t : TUiAnimSplineTrack)
    (s : I2DBezierKey × XmlNode) (i : Nat) : I2DBezierKey × XmlNode :=
  let key := GetKey t i s.1
  let keyNode := Serialize_keyNode E key (t.m_spline.getD i SplineKey.zero)
  (key, { s.2 with children := s.2.children ++ [keyNode] })

/-- The function `Serialize(uiAnimationSystem, xmlNode, bLoading, bLoadEmptyTracks)`: the
returned flag, the track and the node after the call.  The argument `uiAnimationSystem` is
not used by the function and is left out.  This is the function with `assert` compiled out;
`Serialize_call` is the call with the assertion of the saving loop active. -/
def Serialize (E : Externals) (t : TUiAnimSplineTrack) (xmlNode : XmlNode)
    (bLoading : Bool) (bLoadEmptyTracks : Bool) : Bool × TUiAnimSplineTrack × XmlNode :=
  if bLoading then
    let num := xmlNode.children.length
    let flags := t.m_flags
    let flags := (getAttr xmlNode.Flags flags).2
    let t1 := { t with m_defaultValue := (getAttr xmlNode.defaultValue t.m_defaultValue).2 }
    let t2 := SetFlags t1 flags
    let t3 := { t2 with
      m_bCustomColorSet := (getAttr xmlNode.HasCustomColor t2.m_bCustomColorSet).2 }
    let t4 :=
      if t3.m_bCustomColorSet then
        let abgr := (getAttr xmlNode.CustomColor E.indeterminateAbgr).2
        { t3 with m_customColor := ColorB.ofAbgr abgr }
      else t3
    let t5 := SetNumKeys t4 num
    let r := Serialize_loadKeys t5 0 xmlNode.children
    if !r.1 then (false, r.2, xmlNode)
    else if num = 0 ∧ bLoadEmptyTracks = false then (false, r.2, xmlNode)
    else (true, r.2, xmlNode)
  else
    let num := t.GetNumKeys
    let n1 := { xmlNode with Flags := some t.GetFlags }
    let n2 := { n1 with defaultValue := some t.m_defaultValue }
    let n3 := { n2 with HasCustomColor := some t.m_bCustomColorSet }
    let n4 :=
      if t.m_bCustomColorSet then
        { n3 with CustomColor := some t.m_customColor.pack_abgr8888 }
      else n3
    let r := (List.range num.toNat).foldl (Serialize_saveKey E t) (I2DBezierKey.new, n4)
    (true, t, r.2)

/-- The body of the loading loop of `SerializeSelection`, run for the child elements from
index `i` on.  `key.time += fTimeOffset` and `key.value.x += fTimeOffset` are `float`
additions.  The verdict of `assert(key.time == key.value.x)` in a round is
`SerializeSelection_loadKey_assert`. -/
def SerializeSelection_loadKeys (E : Externals) (bCopySelected : Bool) (fTimeOffset : float)
    (numCur : Int) (t : TUiAnimSplineTrack) (i : Nat) :
    List KeyNode → TUiAnimSplineTrack
  | [] => t
  | keyNode :: rest =>
    let key := I2DBezierKey.new
    let key := { key with time := (getAttr keyNode.time key.time).2 }
    let key := { key with value := (getAttr keyNode.value key.value).2 }
    let key := { key with time := fadd key.time fTimeOffset }
    let key := { key with value := ⟨fadd key.value.x fTimeOffset, key.value.y⟩ }
    let key := { key with flags := (getAttr keyNode.flags key.flags).2 }
    let t1 := SetKey t (i + numCur) key
    let t2 := if bCopySelected then SelectKey E t1 (i + numCur) true else t1
    let ds := getAttr keyNode.ds (t2.m_spline.getD (i + numCur).toNat SplineKey.zero).ds
    let t3 := { t2 with
      m_spline := modifyKey (fun k => { k with ds := ds.2 }) t2.m_spline (i + numCur).toNat }
    let dd := getAttr keyNode.dd (t3.m_spline.getD (i + numCur).toNat SplineKey.zero).dd
    let t4 := { t3 with
      m_spline := modifyKey (fun k => { k with dd := dd.2 }) t3.m_spline (i + numCur).toNat }
    SerializeSelection_loadKeys E bCopySelected fTimeOffset numCur t4 (i + 1) rest

/-- The child element that the saving loop of `SerializeSelection` writes for the key `key`
read by `GetKey` and the spline key `k` that `m_spline->key(i)` refers to. -/
def SerializeSelection_keyNode (E : Externals) (key : I2DBezierKey) (k : SplineKey) :
    KeyNode :=
  let keyNode := KeyNode.empty
  let keyNode := { keyNode with time := some key.time }
  let keyNode := { keyNode with value := some key.value }
  let flags := key.flags
  let flags := flags &&& (E.SPLINE_KEY_TANGENT_IN_MASK ||| E.SPLINE_KEY_TANGENT_OUT_MASK)
  let keyNode := if flags ≠ 0 then { keyNode with flags := some flags } else keyNode
  let keyNode := { keyNode with ds := some k.ds }
  { keyNode with dd := some k.dd }

/-- One round of the saving loop of `SerializeSelection`, for key index `i`.  The verdict of
`assert(key.time == key.value.x)` in this round is `saveKey_assert`. -/
def SerializeSelection_saveKey (E : Externals) (bCopySelected : Bool)
    (t : TUiAnimSplineTrack) (s : I2DBezierKey × XmlNode) (i : Nat) :
    I2DBezierKey × XmlNode :=
  let key := GetKey t i s.1
  if !bCopySelected || IsKeySelected E t i then
    let keyNode := SerializeSelection_keyNode E key (t.m_spline.getD i SplineKey.zero)
    (key, { s.2 with children := s.2.children ++ [keyNode] })
  else (key, s.2)

/-- The function `SerializeSelection(xmlNode, bLoading, bCopySelected, fTimeOffset)`: the
returned flag, the track and the node after the call.  This is the function with `assert`
compiled out; `SerializeSelection_call` is the call with the assertions of its two loops
active. -/
def SerializeSelection (E : Externals) (t : TUiAnimSplineTrack) (xmlNode : XmlNode)
    (bLoading : Bool) (bCopySelected : Bool) (fTimeOffset : float) :
    Bool × TUiAnimSplineTrack × XmlNode :=
  if bLoading then
    let numCur := t.GetNumKeys
    let num := xmlNode.children.length
    let type := (getAttr xmlNode.TrackType E.indeterminateType).2
    if type ≠ GetCurveType E then (false, t, xmlNode)
    else
      let t1 := SetNumKeys t (num + numCur.toNat)
      let t2 := SerializeSelection_loadKeys E bCopySelected fTimeOffset numCur t1 0
        xmlNode.children
      (true, SortKeys t2, xmlNode)
  else
    let num := t.GetNumKeys
    let n1 := { xmlNode with TrackType := some (GetCurveType E) }
    let r := (List.range num.toNat).foldl (SerializeSelection_saveKey E bCopySelected t)
      (I2DBezierKey.new, n1)
    (true, t, r.2)

end TUiAnimSplineTrack

/-! ## Auxiliary definitions used to state the properties -/

/-- Whether a child element carries the four attributes whose absence aborts the loading
loop of `Serialize`. -/
def KeyNode.complete (e : KeyNode) : Bool :=
  e.time.isSome && e.value.isSome && e.ds.isSome && e.dd.isSome

/-- The spline key that a child element describes; an absent attribute reads as zero. -/
def KeyNode.toKey (e : KeyNode) : SplineKey :=
  { time := e.time.getD 0, flags := e.flags.getD 0, value := e.value.getD ⟨0, 0⟩,
    ds := e.ds.getD 0, dd := e.dd.getD 0 }

/-- The result of `Serialize` saving the track `t` into a fresh node and then loading that
node into a freshly constructed track. -/
def saveThenLoad (E : Externals) (t : TUiAnimSplineTrack) (bLoadEmptyTracks : Bool) :
    Bool × TUiAnimSplineTrack × XmlNode :=
  TUiAnimSplineTrack.Serialize E (TUiAnimSplineTrack.new E)
    (TUiAnimSplineTrack.Serialize E t XmlNode.empty false bLoadEmptyTracks).2.2
    true bLoadEmptyTracks

/-- The key that the loading loop of `SerializeSelection` stores for a child element: time
and `value.x` are shifted by a `float` addition; an absent attribute reads as zero. -/
def KeyNode.toPastedKey (E : Externals) (bCopySelected : Bool) (fTimeOffset : float)
    (e : KeyNode) : SplineKey :=
  { time := fadd (e.time.getD 0) fTimeOffset,
    flags := if bCopySelected then e.flags.getD 0 ||| E.selectedMask else e.flags.getD 0,
    value := ⟨fadd (e.value.getD ⟨0, 0⟩).x fTimeOffset, (e.value.getD ⟨0, 0⟩).y⟩,
    ds := e.ds.getD 0,
    dd := e.dd.getD 0 }

/-- The track states reachable from a freshly constructed track by calls of `CreateKey`,
`SetKey` with an index in range and a key argument that satisfies `P`, `CopyKey` (from any
source track) and `SetValue`. -/
inductive Reachable (E : Externals) (P : I2DBezierKey → Prop) : TUiAnimSplineTrack → Prop
  | fresh : Reachable E P (TUiAnimSplineTrack.new E)
  | createKey {t : TUiAnimSplineTrack} (time : float) :
      Reachable E P t → Reachable E P (TUiAnimSplineTrack.CreateKey E t time).2
  | setKey {t : TUiAnimSplineTrack} (index : Int) (key : I2DBezierKey) :
      Reachable E P t → 0 ≤ index → index < t.GetNumKeys → P key →
      Reachable E P (TUiAnimSplineTrack.SetKey t index key)
  | copyKey {t : TUiAnimSplineTrack} (pFromTrack : TUiAnimSplineTrack) (nFromKey : Int) :
      Reachable E P t → Reachable E P (TUiAnimSplineTrack.CopyKey E t pFromTrack nFromKey).2
  | setValue {t : TUiAnimSplineTrack} (time value : float) (bDefault : Bool) :
      Reachable E P t → Reachable E P (TUiAnimSplineTrack.SetValue E t time value bDefault)

/-- How a call ends in a build where `assert` is active: the call returns, or one of its
assertions fails.  `GetKey` and `SetKey` guard the index with an `assert` only;
`IndexOutOfRange` is the error that the spec asks for, and no statement of the header reports
it. -/
inductive CallOutcome (α : Type) where
  | returned (a : α) : CallOutcome α
  | assertionFailed : CallOutcome α
  | IndexOutOfRange : CallOutcome α
deriving DecidableEq, Repr

/-- The call `GetKey(index, key)` together with the verdict of
`assert(index >= 0 && index < GetNumKeys())`. -/
def GetKey_call (t : TUiAnimSplineTrack) (index : Int) (key : I2DBezierKey) :
    CallOutcome I2DBezierKey :=
  if 0 ≤ index ∧ index < t.GetNumKeys then
    CallOutcome.returned (TUiAnimSplineTrack.GetKey t index key)
  else CallOutcome.assertionFailed

/-- The call `SetKey(index, key)` together with the verdict of
`assert(index >= 0 && index < GetNumKeys())`. -/
def SetKey_call (t : TUiAnimSplineTrack) (index : Int) (key : I2DBezierKey) :
    CallOutcome TUiAnimSplineTrack :=
  if 0 ≤ index ∧ index < t.GetNumKeys then
    CallOutcome.returned (TUiAnimSplineTrack.SetKey t index key)
  else CallOutcome.assertionFailed

/-- The verdict of `assert(key.time == key.value.x)` in round `i` of a saving loop (line 203
of `Serialize`, line 275 of `SerializeSelection`; in the latter the assertion stands before
the test of the selection, so it is evaluated for every key).  It is evaluated on the key
that `GetKey(i, &key)` has just written; `key` is the local before the round. -/
def saveKey_assert (t : TUiAnimSplineTrack) (key : I2DBezierKey) (i : Nat) : Bool :=
  let key := TUiAnimSplineTrack.GetKey t i key
  decide (key.time = key.value.x)

/-- Whether the assertion of a saving loop holds in each of its rounds `0, ..., num - 1`,
with `num = GetNumKeys()`.  The index assertion of `GetKey` holds in every round, and `GetKey`
overwrites the three members of the local `key`, so the verdict of a round does not depend
on the rounds before it. -/
def save_asserts (t : TUiAnimSplineTrack) : Bool :=
  (List.range t.GetNumKeys.toNat).all (fun i => saveKey_assert t I2DBezierKey.new i)

/-- The verdict of `assert(key.time == key.value.x)` in the round of the loading loop of
`SerializeSelection` that reads the child element `keyNode` (line 247): the local `key` is
default-constructed and then receives those of the attributes `time` and `value` that the
element carries.  For an element without one of the two, the comparison reads a member of
the default-constructed key. -/
def SerializeSelection_loadKey_assert (keyNode : KeyNode) : Bool :=
  let key := I2DBezierKey.new
  let key := { key with time := (getAttr keyNode.time key.time).2 }
  let key := { key with value := (getAttr keyNode.value key.value).2 }
  decide (key.time = key.value.x)

/-- The call `Serialize(uiAnimationSystem, xmlNode, bLoading, bLoadEmptyTracks)` with `assert`
active.  The loading branch has no assertion of its own (the one at line 163 is commented
out) and `SetKey(i, &key)` is called with `i` below the key count that `SetNumKeys(num)` has
set.  The saving branch fails the assertion at line 203 in the first round whose key has
`time` different from `value.x`; an assertion that holds has no effect. -/
def Serialize_call (E : Externals) (t : TUiAnimSplineTrack) (xmlNode : XmlNode)
    (bLoading : Bool) (bLoadEmptyTracks : Bool) :
    CallOutcome (Bool × TUiAnimSplineTrack × XmlNode) :=
  if bLoading then
    CallOutcome.returned (TUiAnimSplineTrack.Serialize E t xmlNode bLoading bLoadEmptyTracks)
  else if save_asserts t then
    CallOutcome.returned (TUiAnimSplineTrack.Serialize E t xmlNode bLoading bLoadEmptyTracks)
  else CallOutcome.assertionFailed

/-- The call `SerializeSelection(xmlNode, bLoading, bCopySelected, fTimeOffset)` with `assert`
active.  The loading branch returns `false` before its loop when the type does not match;
otherwise it fails the assertion at line 247 at the first child element whose key has `time`
different from `value.x` (`SetKey(i + numCur, &key)` is called with an index below the key
count that `SetNumKeys(num + numCur)` has set).  The saving branch fails the assertion at
line 275 in the first round whose key has `time` different from `value.x`. -/
def SerializeSelection_call (E : Externals) (t : TUiAnimSplineTrack) (xmlNode : XmlNode)
    (bLoading : Bool) (bCopySelected : Bool) (fTimeOffset : float) :
    CallOutcome (Bool × TUiAnimSplineTrack × XmlNode) :=
  if bLoading then
    let type := (getAttr xmlNode.TrackType E.indeterminateType).2
    if type ≠ TUiAnimSplineTrack.GetCurveType E then
      CallOutcome.returned
        (TUiAnimSplineTrack.SerializeSelection E t xmlNode bLoading bCopySelected fTimeOffset)
    else if xmlNode.children.all SerializeSelection_loadKey_assert then
      CallOutcome.returned
        (TUiAnimSplineTrack.SerializeSelection E t xmlNode bLoading bCopySelected fTimeOffset)
    else CallOutcome.assertionFailed
  else if save_asserts t then
    CallOutcome.returned
      (TUiAnimSplineTrack.SerializeSelection E t xmlNode bLoading bCopySelected fTimeOffset)
  else CallOutcome.assertionFailed

/-- The value range of `t1` is that of `t` or wider. -/
def Widens (t t1 : TUiAnimSplineTrack) : Prop :=
  t1.m_fMinKeyValue ≤ t.m_fMinKeyValue ∧ t.m_fMaxKeyValue ≤ t1.m_fMaxKeyValue

/-- The value range of `t` contains zero and the scalar value of every key of `t`. -/
def RangeOK (t : TUiAnimSplineTrack) : Prop :=
  (∀ k ∈ t.m_spline, t.m_fMinKeyValue ≤ k.value.y ∧ k.value.y ≤ t.m_fMaxKeyValue) ∧
  t.m_fMinKeyValue ≤ 0 ∧ 0 ≤ t.m_fMaxKeyValue

/-- One call of an operation that writes keys: `CreateKey`, `SetKey` with an index in range,
`CopyKey`, `SetValue`, the loading `Serialize` or the loading `SerializeSelection`; the track
before and after the call. -/
inductive Step (E : Externals) : TUiAnimSplineTrack → TUiAnimSplineTrack → Prop
  | createKey (t : TUiAnimSplineTrack) (time : float) :
      Step E t (TUiAnimSplineTrack.CreateKey E t time).2
  | setKey (t : TUiAnimSplineTrack) (index : Int) (key : I2DBezierKey) :
      0 ≤ index → index < t.GetNumKeys → Step E t (TUiAnimSplineTrack.SetKey t index key)
  | copyKey (t pFromTrack : TUiAnimSplineTrack) (nFromKey : Int) :
      Step E t (TUiAnimSplineTrack.CopyKey E t pFromTrack nFromKey).2
  | setValue (t : TUiAnimSplineTrack) (time value : float) (bDefault : Bool) :
      Step E t (TUiAnimSplineTrack.SetValue E t time value bDefault)
  | serializeLoad (t : TUiAnimSplineTrack) (xmlNode : XmlNode) (bLoadEmptyTracks : Bool) :
      Step E t (TUiAnimSplineTrack.Serialize E t xmlNode true bLoadEmptyTracks).2.1
  | serializeSelectionLoad (t : TUiAnimSplineTrack) (xmlNode : XmlNode)
      (bCopySelected : Bool) (fTimeOffset : float) :
      Step E t
        (TUiAnimSplineTrack.SerializeSelection E t xmlNode true bCopySelected fTimeOffset).2.1

/-- The runs of steps from a freshly constructed track: the track reached, and the scalar
values of all keys that were in the track after one of the steps (every key that a step
inserted or overwrote is in the track after that step). -/
inductive History (E : Externals) : TUiAnimSplineTrack → List float → Prop
  | fresh : History E (TUiAnimSplineTrack.new E) []
  | step {t t1 : TUiAnimSplineTrack} {ys : List float} :
      History E t ys → Step E t t1 →
      History E t1 (ys ++ t1.m_spline.map (fun k => k.value.y))

/-- The result of `SerializeSelection` saving all keys of the track `t` into a fresh node and
then loading that node, with the time offset `fTimeOffset`, into the track `t0`. -/
def selectionSaveThenLoad (E : Externals) (t t0 : TUiAnimSplineTrack) (fTimeOffset : float) :
    Bool × TUiAnimSplineTrack × XmlNode :=
  TUiAnimSplineTrack.SerializeSelection E t0
    (TUiAnimSplineTrack.SerializeSelection E t XmlNode.empty false false 0).2.2
    true false fTimeOffset

/-- The two calls of `selectionSaveThenLoad` with `assert` active: the load runs on the node
that the save has returned. -/
def selectionSaveThenLoad_call (E : Externals) (t t0 : TUiAnimSplineTrack)
    (fTimeOffset : float) : CallOutcome (Bool × TUiAnimSplineTrack × XmlNode) :=
  match SerializeSelection_call E t XmlNode.empty false false 0 with
  | CallOutcome.returned r => SerializeSelection_call E t0 r.2.2 true false fTimeOffset
  | CallOutcome.assertionFailed => CallOutcome.assertionFailed
  | CallOutcome.IndexOutOfRange => CallOutcome.IndexOutOfRange

/-! ## Concrete inputs -/

/-- An instance of the externals: the mask values of the engine headers, a constant
interpolator, zero for indeterminate storage. -/
def engine : Externals :=
  { SPLINE_KEY_TANGENT_IN_MASK := 7,
    SPLINE_KEY_TANGENT_OUT_MASK := 56,
    SPLINE_KEY_TANGENT_UNIFY_MASK := 64,
    selectedMask := 65536,
    eUiAnimCurveType_BezierFloat := 4,
    Interpolate := fun _ _ => 0,
    indeterminateType := 0,
    indeterminateAbgr := 0,
    indeterminateColor := ⟨0, 0, 0, 0⟩ }

/-- A track with keys at the times 0, 1 and 2; the key at time 1 is selected and has
tangent flags. -/
def track012 : TUiAnimSplineTrack :=
  { m_spline :=
      [ { time := 0, flags := 0, value := ⟨0, 3⟩, ds := 0, dd := 0 },
        { time := 1, flags := 65545, value := ⟨1, 7⟩, ds := 1 / 2, dd := 1 / 4 },
        { time := 2, flags := 0, value := ⟨2, 5⟩, ds := 0, dd := 0 } ],
    m_flags := 0,
    m_defaultValue := ⟨0, 0⟩,
    m_fMinKeyValue := 0,
    m_fMaxKeyValue := 7,
    m_bCustomColorSet := false,
    m_customColor := ⟨0, 0, 0, 0⟩ }

/-- A track node with one complete key element and one that lacks the `value` attribute. -/
def nodeMissingValue : XmlNode :=
  { XmlNode.empty with
    children :=
      [ { time := some 0, value := some ⟨0, 1⟩, flags := some 9, ds := some 0, dd := some 0 },
        { time := some 1, value := none, flags := none, ds := some 0, dd := some 0 } ] }

/-- A track node whose only key element carries every attribute but `flags`. -/
def nodeNoFlags : XmlNode :=
  { XmlNode.empty with
    children :=
      [ { time := some 1, value := some ⟨1, 2⟩, flags := none, ds := some 3, dd := some 4 } ] }

/-- A selection node of the Bezier curve type with two key elements, at the times 0 and
1/2. -/
def selectionNode : XmlNode :=
  { XmlNode.empty with
    TrackType := some 4,
    children :=
      [ { time := some 0, value := some ⟨0, 3⟩, flags := none, ds := some 1, dd := some 2 },
        { time := some (1 / 2), value := some ⟨1 / 2, 4⟩, flags := some 9, ds := some 0,
          dd := some 0 } ] }

/-- A selection node of another curve type. -/
def selectionNodeOtherType : XmlNode :=
  { selectionNode with TrackType := some 1 }

/-- A track node whose first key element has a value whose `x` differs from its time and
whose second key element lacks the `value` attribute. -/
def nodeSkewedThenMissingValue : XmlNode :=
  { XmlNode.empty with
    children :=
      [ { time := some 1, value := some ⟨2, 3⟩, flags := none, ds := some 0, dd := some 0 },
        { time := some 4, value := none, flags := none, ds := some 0, dd := some 0 } ] }

/-- A track node with two complete key elements whose times, 2 and 1, are not in increasing
order. -/
def nodeUnsorted : XmlNode :=
  { XmlNode.empty with
    children :=
      [ { time := some 2, value := some ⟨2, 0⟩, flags := none, ds := some 0, dd := some 0 },
        { time := some 1, value := some ⟨1, 0⟩, flags := none, ds := some 0, dd := some 0 } ] }

/-- A track node without key elements that carries track flags, a default value and an
opaque red custom colour. -/
def nodeEmptyColoured : XmlNode :=
  { XmlNode.empty with
    Flags := some 3,
    defaultValue := some ⟨0, 8⟩,
    HasCustomColor := some true,
    CustomColor := some 4278190335 }

/-- A track node whose first key element is complete and whose second key element lacks the
`dd` attribute. -/
def nodeMissingDd : XmlNode :=
  { XmlNode.empty with
    children :=
      [ { time := some 5, value := some ⟨5, 1⟩, flags := some 9, ds := some 2, dd := some 3 },
        { time := some 6, value := some ⟨6, 2⟩, flags := some 1, ds := some 4, dd := none },
        { time := some 7, value := some ⟨7, 3⟩, flags := none, ds := some 0, dd := some 0 } ] }

/-- A track with two keys, at the times 0 and 1. -/
def track01 : TUiAnimSplineTrack :=
  { m_spline :=
      [ { time := 0, flags := 0, value := ⟨0, 3⟩, ds := 0, dd := 0 },
        { time := 1, flags := 9, value := ⟨1, 7⟩, ds := 1 / 2, dd := 1 / 4 } ],
    m_flags := 0,
    m_defaultValue := ⟨0, 0⟩,
    m_fMinKeyValue := 0,
    m_fMaxKeyValue := 7,
    m_bCustomColorSet := false,
    m_customColor := ⟨0, 0, 0, 0⟩ }

/-- A selection node of the Bezier curve type with one complete key element, at the time 1
with the value (1, 2). -/
def selectionNodeOne : XmlNode :=
  { XmlNode.empty with
    TrackType := some 4,
    children :=
      [ { time := some 1, value := some ⟨1, 2⟩, flags := none, ds := some 0, dd := some 0 } ] }

/-- A selection node of the Bezier curve type whose only key element is complete and has a
value whose `x`, 2, differs from its time, 1. -/
def selectionNodeSkewed : XmlNode :=
  { XmlNode.empty with
    TrackType := some 4,
    children :=
      [ { time := some 1, value := some ⟨2, 3⟩, flags := none, ds := some 0, dd := some 0 } ] }

/-- A selection node of the Bezier curve type whose only key element lacks the `time`
attribute and carries the value (5, 1). -/
def selectionNodeNoTime : XmlNode :=
  { XmlNode.empty with
    TrackType := some 4,
    children :=
      [ { time := none, value := some ⟨5, 1⟩, flags := none, ds := some 0, dd := some 0 } ] }

/-- A selection node of the Bezier curve type whose key elements carry `time` and `value`
with `value.x` equal to the time; the second element has no `flags`, `ds` and `dd`. -/
def selectionNodeNoTangents : XmlNode :=
  { XmlNode.empty with
    TrackType := some 4,
    children :=
      [ { time := some 0, value := some ⟨0, 3⟩, flags := some 9, ds := some 1, dd := some 2 },
        { time := some (1 / 2), value := some ⟨1 / 2, 4⟩, flags := none, ds := none,
          dd := none } ] }

/-! ## Lemmas -/

open TUiAnimSplineTrack

@[simp]
theorem getAttr_some {α : Type} (v out : α) : getAttr (some v) out = (true, v) := rfl

@[simp]
theorem getAttr_none {α : Type} (out : α) : getAttr (none : Option α) out = (false, out) := rfl

theorem modifyKey_length (f : SplineKey → SplineKey) (l : List SplineKey) (i : Nat) :
    (modifyKey f l i).length = l.length := by
  induction l generalizing i with
  | nil => rfl
  | cons k ks ih => cases i <;> simp [modifyKey, ih]

theorem modifyKey_append (f : SplineKey → SplineKey) (pre : List SplineKey) (k : SplineKey)
    (suf : List SplineKey) :
    modifyKey f (pre ++ k :: suf) pre.length = pre ++ f k :: suf := by
  induction pre with
  | nil => rfl
  | cons a as ih => simp [modifyKey, ih]

theorem modifyKey_of_le (f : SplineKey → SplineKey) (l : List SplineKey) (i : Nat)
    (h : l.length ≤ i) : modifyKey f l i = l := by
  induction l generalizing i with
  | nil => rfl
  | cons k ks ih =>
    cases i with
    | zero => simp at h
    | succ i => simp [modifyKey, ih i (by simpa using h)]

theorem SetKey_m_spline (t : TUiAnimSplineTrack) (i : Nat) (key : I2DBezierKey) :
    (SetKey t (i : Int) key).m_spline =
      modifyKey (fun k => { k with time := key.time, flags := key.flags, value := key.value })
        t.m_spline i := by
  unfold SetKey
  split
  · simp [Invalidate, UpdateTrackValueRange]
  · rename_i h
    have hi : t.m_spline.length ≤ i := by
      simp [GetNumKeys] at h
      exact h
    exact (modifyKey_of_le _ _ _ hi).symm

theorem SetKey_frame (t : TUiAnimSplineTrack) (index : Int) (key : I2DBezierKey) :
    (SetKey t index key).m_flags = t.m_flags ∧
    (SetKey t index key).m_defaultValue = t.m_defaultValue ∧
    (SetKey t index key).m_bCustomColorSet = t.m_bCustomColorSet ∧
    (SetKey t index key).m_customColor = t.m_customColor := by
  unfold SetKey
  split <;> simp [Invalidate, UpdateTrackValueRange]

theorem Serialize_loadKeys_ok (rest : List KeyNode) :
    ∀ (t : TUiAnimSplineTrack) (pre suf : List SplineKey),
      t.m_spline = pre ++ suf → suf.length = rest.length →
      (∀ e ∈ rest, e.complete = true) →
      (Serialize_loadKeys t pre.length rest).1 = true ∧
      (Serialize_loadKeys t pre.length rest).2.m_spline = pre ++ rest.map KeyNode.toKey := by
  induction rest with
  | nil =>
    intro t pre suf ht hlen _
    have : suf = [] := List.length_eq_zero.mp hlen
    simp [Serialize_loadKeys, ht, this]
  | cons e rest ih =>
    intro t pre suf ht hlen hall
    obtain ⟨k, suf1, rfl⟩ : ∃ k suf1, suf = k :: suf1 := by
      cases suf with
      | nil => simp at hlen
      | cons k suf1 => exact ⟨k, suf1, rfl⟩
    have he : e.complete = true := hall e (List.mem_cons_self _ _)
    have hrest : ∀ e1 ∈ rest, e1.complete = true :=
      fun e1 h1 => hall e1 (List.mem_cons_of_mem _ h1)
    obtain ⟨tm, v, fl, ds, dd⟩ := e
    cases tm <;> cases v <;> cases ds <;> cases dd <;>
      simp [KeyNode.complete] at he
    rename_i tm v ds dd
    have hlen1 : suf1.length = rest.length := by simpa using hlen
    have hT : ∀ T : TUiAnimSplineTrack,
        T.m_spline = pre ++ KeyNode.toKey ⟨some tm, some v, fl, some ds, some dd⟩ :: suf1 →
        (Serialize_loadKeys T (pre.length + 1) rest).1 = true ∧
        (Serialize_loadKeys T (pre.length + 1) rest).2.m_spline =
          pre ++ KeyNode.toKey ⟨some tm, some v, fl, some ds, some dd⟩ ::
            rest.map KeyNode.toKey := by
      intro T hTs
      have := ih T (pre ++ [KeyNode.toKey ⟨some tm, some v, fl, some ds, some dd⟩]) suf1
        (by simp [hTs]) hlen1 hrest
      simpa using this
    simp only [Serialize_loadKeys, getAttr_some, Bool.not_true, Bool.false_eq_true, if_false,
      List.map_cons]
    apply hT
    simp only [SetKey_m_spline, ht, modifyKey_append]
    cases fl <;> simp [KeyNode.toKey, I2DBezierKey.new]

theorem Serialize_loadKeys_fst (rest : List KeyNode) :
    ∀ (t : TUiAnimSplineTrack) (i : Nat),
      (Serialize_loadKeys t i rest).1 = rest.all KeyNode.complete := by
  induction rest with
  | nil => intro t i; rfl
  | cons e rest ih =>
    intro t i
    obtain ⟨tm, v, fl, ds, dd⟩ := e
    cases tm <;> cases v <;> cases ds <;> cases dd <;>
      simp [Serialize_loadKeys, KeyNode.complete, ih]

theorem SetNumKeys_length (t : TUiAnimSplineTrack) (n : Nat) :
    (SetNumKeys t n).m_spline.length = n := by
  simp [SetNumKeys]
  omega

theorem Serialize_load_fst (E : Externals) (t : TUiAnimSplineTrack) (xmlNode : XmlNode)
    (bLoadEmptyTracks : Bool) :
    (Serialize E t xmlNode true bLoadEmptyTracks).1 =
      (xmlNode.children.all KeyNode.complete &&
        (!xmlNode.children.isEmpty || bLoadEmptyTracks)) := by
  simp only [Serialize, if_true, Serialize_loadKeys_fst]
  cases hc : xmlNode.children.all KeyNode.complete
  · simp
  · cases hch : xmlNode.children <;> cases bLoadEmptyTracks <;> simp

theorem Serialize_load_m_spline (E : Externals) (t : TUiAnimSplineTrack) (xmlNode : XmlNode)
    (bLoadEmptyTracks : Bool) (h : ∀ e ∈ xmlNode.children, e.complete = true) :
    (Serialize E t xmlNode true bLoadEmptyTracks).2.1.m_spline =
      xmlNode.children.map KeyNode.toKey := by
  have key : ∀ T : TUiAnimSplineTrack,
      (Serialize_loadKeys (SetNumKeys T xmlNode.children.length) 0 xmlNode.children).2.m_spline
        = xmlNode.children.map KeyNode.toKey := by
    intro T
    have := Serialize_loadKeys_ok xmlNode.children (SetNumKeys T xmlNode.children.length) []
      (SetNumKeys T xmlNode.children.length).m_spline (by simp) (SetNumKeys_length _ _) h
    simpa using this.2
  simp only [Serialize, if_true]
  split_ifs <;> exact key _

theorem GetKey_natCast (t : TUiAnimSplineTrack) (i : Nat) (key : I2DBezierKey)
    (k : SplineKey) (h : t.m_spline[i]? = some k) :
    GetKey t (i : Int) key = ⟨k.time, k.flags, k.value⟩ := by
  have hi : i < t.m_spline.length := by
    rcases Nat.lt_or_ge i t.m_spline.length with h1 | h1
    · exact h1
    · rw [List.getElem?_eq_none h1] at h; cases h
  simp [GetKey, GetNumKeys, hi, h]

theorem Serialize_save_foldl (E : Externals) (t : TUiAnimSplineTrack) (suf : List SplineKey) :
    ∀ (pre : List SplineKey) (key : I2DBezierKey) (node : XmlNode),
      t.m_spline = pre ++ suf →
      ((List.range' pre.length suf.length).foldl (Serialize_saveKey E t) (key, node)).2 =
        { node with
          children := (node.children ++
            suf.map (fun k => Serialize_keyNode E ⟨k.time, k.flags, k.value⟩ k)) } := by
  induction suf with
  | nil => intro pre key node _; simp
  | cons k suf ih =>
    intro pre key node ht
    have hk : t.m_spline[pre.length]? = some k := by
      rw [ht, List.getElem?_append_right (Nat.le_refl _)]
      simp
    have hd : t.m_spline.getD pre.length SplineKey.zero = k := by
      simp [List.getD, hk]
    have := ih (pre ++ [k]) ⟨k.time, k.flags, k.value⟩
      { node with
        children := (node.children ++ [Serialize_keyNode E ⟨k.time, k.flags, k.value⟩ k]) }
      (by simp [ht])
    simp only [List.length_cons, List.range'_succ, List.foldl_cons, Serialize_saveKey,
      GetKey_natCast t pre.length key k hk, hd]
    simpa using this

theorem complete_iff (e : KeyNode) :
    e.complete = true ↔ e.time ≠ none ∧ e.value ≠ none ∧ e.ds ≠ none ∧ e.dd ≠ none := by
  obtain ⟨tm, v, fl, ds, dd⟩ := e
  cases tm <;> cases v <;> cases ds <;> cases dd <;> simp [KeyNode.complete]

theorem mem_insert_key (k : SplineKey) (l : List SplineKey) (a : SplineKey) :
    a ∈ (insert_key k l).2 ↔ a = k ∨ a ∈ l := by
  induction l with
  | nil => simp [insert_key]
  | cons b bs ih =>
    unfold insert_key
    split_ifs
    · simp
    · simp only [List.mem_cons, ih]
      tauto

theorem mem_modifyKey (f : SplineKey → SplineKey) (l : List SplineKey) (i : Nat)
    (a : SplineKey) (h : a ∈ modifyKey f l i) : a ∈ l ∨ ∃ b ∈ l, a = f b := by
  induction l generalizing i with
  | nil => simp [modifyKey] at h
  | cons b bs ih =>
    cases i with
    | zero =>
      simp only [modifyKey, List.mem_cons] at h
      rcases h with h | h
      · exact Or.inr ⟨b, List.mem_cons_self _ _, h⟩
      · exact Or.inl (List.mem_cons_of_mem _ h)
    | succ i =>
      simp only [modifyKey, List.mem_cons] at h
      rcases h with h | h
      · exact Or.inl (h ▸ List.mem_cons_self _ _)
      · rcases ih i h with h1 | ⟨c, hc, h1⟩
        · exact Or.inl (List.mem_cons_of_mem _ h1)
        · exact Or.inr ⟨c, List.mem_cons_of_mem _ hc, h1⟩

theorem SetKey_timeX (t : TUiAnimSplineTrack) (index : Int) (key : I2DBezierKey)
    (ht : ∀ k ∈ t.m_spline, k.value.x = k.time) (hkey : key.value.x = key.time) :
    ∀ k ∈ (SetKey t index key).m_spline, k.value.x = k.time := by
  intro k hk
  unfold SetKey at hk
  split_ifs at hk
  · simp only [Invalidate, UpdateTrackValueRange] at hk
    rcases mem_modifyKey _ _ _ _ hk with h | ⟨b, _, rfl⟩
    · exact ht k h
    · exact hkey
  · exact ht k hk

theorem CreateKey_timeX (E : Externals) (t : TUiAnimSplineTrack) (time : float)
    (ht : ∀ k ∈ t.m_spline, k.value.x = k.time) :
    ∀ k ∈ (CreateKey E t time).2.m_spline, k.value.x = k.time := by
  intro k hk
  simp only [CreateKey, InsertKey, UpdateTrackValueRange, mem_insert_key] at hk
  rcases hk with rfl | hk
  · rfl
  · exact ht k hk

theorem CopyKey_timeX (E : Externals) (t pFromTrack : TUiAnimSplineTrack) (nFromKey : Int)
    (ht : ∀ k ∈ t.m_spline, k.value.x = k.time) :
    ∀ k ∈ (CopyKey E t pFromTrack nFromKey).2.m_spline, k.value.x = k.time := by
  unfold CopyKey
  exact SetKey_timeX _ _ _ (CreateKey_timeX E t _ ht) rfl

theorem SetValue_timeX (E : Externals) (t : TUiAnimSplineTrack) (time value : float)
    (bDefault : Bool) (ht : ∀ k ∈ t.m_spline, k.value.x = k.time) :
    ∀ k ∈ (SetValue E t time value bDefault).m_spline, k.value.x = k.time := by
  unfold SetValue
  split_ifs
  · unfold SetKeyAtTime
    split
    · split
      · exact SetKey_timeX _ _ _ ht rfl
      · exact ht
    · dsimp only
      split
      · exact SetKey_timeX _ _ _ (CreateKey_timeX E t _ ht) rfl
      · exact CreateKey_timeX E t _ ht
  · exact ht

theorem getD_append_length (pre : List SplineKey) (k : SplineKey) (suf : List SplineKey)
    (d : SplineKey) : (pre ++ k :: suf).getD pre.length d = k := by
  induction pre with
  | nil => rfl
  | cons a as ih => simpa using ih

theorem SelectKey_m_spline (E : Externals) (t : TUiAnimSplineTrack) (i : Nat) :
    (SelectKey E t (i : Int) true).m_spline =
      modifyKey (fun k => { k with flags := k.flags ||| E.selectedMask }) t.m_spline i := by
  unfold SelectKey
  split
  · simp
  · rename_i h
    have hi : t.m_spline.length ≤ i := by
      simp [GetNumKeys] at h
      exact h
    exact (modifyKey_of_le _ _ _ hi).symm

theorem SerializeSelection_loadKeys_m_spline (E : Externals) (bCopySelected : Bool)
    (fTimeOffset : float) (n : Nat) (rest : List KeyNode) :
    ∀ (t : TUiAnimSplineTrack) (pre : List SplineKey) (i : Nat),
      t.m_spline = pre ++ List.replicate rest.length SplineKey.zero →
      pre.length = i + n →
      (SerializeSelection_loadKeys E bCopySelected fTimeOffset (n : Int) t i rest).m_spline =
        pre ++ rest.map (KeyNode.toPastedKey E bCopySelected fTimeOffset) := by
  induction rest with
  | nil => intro t pre i ht _; simp [SerializeSelection_loadKeys, ht]
  | cons e rest ih =>
    intro t pre i ht hlen
    have hidx : ((i : Int) + (n : Int)) = ((pre.length : Nat) : Int) := by
      rw [hlen]; push_cast; rfl
    have hT : ∀ T : TUiAnimSplineTrack,
        T.m_spline = pre ++ KeyNode.toPastedKey E bCopySelected fTimeOffset e ::
          List.replicate rest.length SplineKey.zero →
        (SerializeSelection_loadKeys E bCopySelected fTimeOffset (n : Int) T (i + 1)
          rest).m_spline =
          pre ++ KeyNode.toPastedKey E bCopySelected fTimeOffset e ::
            rest.map (KeyNode.toPastedKey E bCopySelected fTimeOffset) := by
      intro T hTs
      have := ih T (pre ++ [KeyNode.toPastedKey E bCopySelected fTimeOffset e]) (i + 1)
        (by simp [hTs]) (by simp [hlen]; omega)
      simpa using this
    simp only [SerializeSelection_loadKeys, List.map_cons]
    apply hT
    rw [hidx]
    simp only [Int.toNat_ofNat]
    cases bCopySelected
    · simp only [Bool.false_eq_true, if_false, SetKey_m_spline, ht, List.length_cons,
        List.replicate_succ, modifyKey_append, getD_append_length]
      obtain ⟨tm, v, fl, ds, dd⟩ := e
      cases tm <;> cases v <;> cases fl <;> cases ds <;> cases dd <;>
        simp [KeyNode.toPastedKey, I2DBezierKey.new, SplineKey.zero]
    · simp only [if_true, SelectKey_m_spline, SetKey_m_spline, ht, List.length_cons,
        List.replicate_succ, modifyKey_append, getD_append_length]
      obtain ⟨tm, v, fl, ds, dd⟩ := e
      cases tm <;> cases v <;> cases fl <;> cases ds <;> cases dd <;>
        simp [KeyNode.toPastedKey, I2DBezierKey.new, SplineKey.zero]

theorem SerializeSelection_load_eq (E : Externals) (t : TUiAnimSplineTrack)
    (xmlNode : XmlNode) (bCopySelected : Bool) (fTimeOffset : float)
    (h : xmlNode.TrackType = some (GetCurveType E)) :
    (SerializeSelection E t xmlNode true bCopySelected fTimeOffset).1 = true ∧
    (SerializeSelection E t xmlNode true bCopySelected fTimeOffset).2.1.m_spline =
      List.insertionSort (fun a b : SplineKey => a.time ≤ b.time)
        (t.m_spline ++
          xmlNode.children.map (KeyNode.toPastedKey E bCopySelected fTimeOffset)) := by
  have hk := SerializeSelection_loadKeys_m_spline E bCopySelected fTimeOffset
    t.m_spline.length xmlNode.children
    (SetNumKeys t (xmlNode.children.length + t.m_spline.length)) t.m_spline 0
    (by simp [SetNumKeys]) (by simp)
  simp only [SerializeSelection, if_true, h, getAttr_some, ne_eq, not_true_eq_false, if_false,
    SortKeys, GetNumKeys, Int.toNat_ofNat, hk]
  exact ⟨trivial, trivial⟩

theorem flagsSelected_or (E : Externals) (flags : Nat) (h : E.selectedMask ≠ 0) :
    flagsSelected E (flags ||| E.selectedMask) = true := by
  have : (flags ||| E.selectedMask) &&& E.selectedMask = E.selectedMask := by
    apply Nat.eq_of_testBit_eq
    intro i
    simp only [Nat.testBit_and, Nat.testBit_or]
    cases flags.testBit i <;> cases E.selectedMask.testBit i <;> rfl
  simp [flagsSelected, this, h]

theorem toPastedKey_fields (E : Externals) (bCopySelected : Bool) (fTimeOffset : float)
    (e : KeyNode) (tm : float) (v : Vec2) (h1 : e.time = some tm) (h2 : e.value = some v) :
    (e.toPastedKey E bCopySelected fTimeOffset).time = fadd tm fTimeOffset ∧
    (e.toPastedKey E bCopySelected fTimeOffset).value = ⟨fadd v.x fTimeOffset, v.y⟩ := by
  simp [KeyNode.toPastedKey, h1, h2]

theorem saveKey_assert_natCast (t : TUiAnimSplineTrack) (key : I2DBezierKey) (i : Nat)
    (k : SplineKey) (h : t.m_spline[i]? = some k) :
    saveKey_assert t key i = decide (k.time = k.value.x) := by
  simp [saveKey_assert, GetKey_natCast t i key k h]

theorem save_asserts_iff (t : TUiAnimSplineTrack) :
    save_asserts t = true ↔ ∀ k ∈ t.m_spline, k.time = k.value.x := by
  simp only [save_asserts, GetNumKeys, Int.toNat_ofNat, List.all_eq_true, List.mem_range]
  constructor
  · intro h k hk
    obtain ⟨i, hi, hik⟩ := List.getElem_of_mem hk
    have hs : t.m_spline[i]? = some k := by rw [List.getElem?_eq_getElem hi, hik]
    have := h i hi
    rw [saveKey_assert_natCast t _ i k hs] at this
    exact of_decide_eq_true this
  · intro h i hi
    have hs : t.m_spline[i]? = some (t.m_spline[i]) := List.getElem?_eq_getElem hi
    rw [saveKey_assert_natCast t _ i _ hs]
    exact decide_eq_true (h _ (List.getElem_mem hi))

theorem SerializeSelection_loadKey_assert_iff (e : KeyNode) (tm : float) (v : Vec2)
    (h1 : e.time = some tm) (h2 : e.value = some v) :
    SerializeSelection_loadKey_assert e = true ↔ v.x = tm := by
  simp [SerializeSelection_loadKey_assert, h1, h2, eq_comm]

theorem Serialize_call_save (E : Externals) (t : TUiAnimSplineTrack) (xmlNode : XmlNode)
    (bLoadEmptyTracks : Bool) :
    ((∀ k ∈ t.m_spline, k.time = k.value.x) →
      Serialize_call E t xmlNode false bLoadEmptyTracks =
        CallOutcome.returned (Serialize E t xmlNode false bLoadEmptyTracks)) ∧
    (¬ (∀ k ∈ t.m_spline, k.time = k.value.x) →
      Serialize_call E t xmlNode false bLoadEmptyTracks = CallOutcome.assertionFailed) := by
  constructor
  · intro h
    simp [Serialize_call, (save_asserts_iff t).2 h]
  · intro h
    have : save_asserts t = false := by
      cases hs : save_asserts t
      · rfl
      · exact absurd ((save_asserts_iff t).1 hs) h
    simp [Serialize_call, this]

theorem SerializeSelection_call_save (E : Externals) (t : TUiAnimSplineTrack)
    (xmlNode : XmlNode) (bCopySelected : Bool) (fTimeOffset : float) :
    ((∀ k ∈ t.m_spline, k.time = k.value.x) →
      SerializeSelection_call E t xmlNode false bCopySelected fTimeOffset =
        CallOutcome.returned (SerializeSelection E t xmlNode false bCopySelected fTimeOffset)) ∧
    (¬ (∀ k ∈ t.m_spline, k.time = k.value.x) →
      SerializeSelection_call E t xmlNode false bCopySelected fTimeOffset =
        CallOutcome.assertionFailed) := by
  constructor
  · intro h
    simp [SerializeSelection_call, (save_asserts_iff t).2 h]
  · intro h
    have : save_asserts t = false := by
      cases hs : save_asserts t
      · rfl
      · exact absurd ((save_asserts_iff t).1 hs) h
    simp [SerializeSelection_call, this]

theorem SerializeSelection_call_load (E : Externals) (t : TUiAnimSplineTrack)
    (xmlNode : XmlNode) (bCopySelected : Bool) (fTimeOffset : float)
    (h : xmlNode.TrackType = some (GetCurveType E)) :
    ((∀ e ∈ xmlNode.children, SerializeSelection_loadKey_assert e = true) →
      SerializeSelection_call E t xmlNode true bCopySelected fTimeOffset =
        CallOutcome.returned (SerializeSelection E t xmlNode true bCopySelected fTimeOffset)) ∧
    (¬ (∀ e ∈ xmlNode.children, SerializeSelection_loadKey_assert e = true) →
      SerializeSelection_call E t xmlNode true bCopySelected fTimeOffset =
        CallOutcome.assertionFailed) := by
  constructor
  · intro ha
    have : xmlNode.children.all SerializeSelection_loadKey_assert = true :=
      List.all_eq_true.2 ha
    simp [SerializeSelection_call, h, this]
  · intro ha
    have : xmlNode.children.all SerializeSelection_loadKey_assert = false := by
      cases hs : xmlNode.children.all SerializeSelection_loadKey_assert
      · rfl
      · exact absurd (List.all_eq_true.1 hs) ha
    simp [SerializeSelection_call, h, this]

/-- The values of the rounding at the inputs used below: the literal `0.01f`, and the sums
`1.0f + 0.01f`, `262144.0f + 0.01f`, `1.0f + 16777216.0f` and `3.0f + 16777216.0f`. -/
theorem roundBinary32_values :
    roundBinary32 (1 / 100) = 5368709 / 536870912 ∧
    fadd 1 (roundBinary32 (1 / 100)) = 4236247 / 4194304 ∧
    fadd 262144 (roundBinary32 (1 / 100)) = 262144 ∧
    fadd 1 16777216 = 16777216 ∧
    fadd 3 16777216 = 16777220 := by
  decide!

theorem fadd_zero (x : float) : fadd x 0 = roundBinary32 x := by
  simp [fadd]

/-! ## Full serialization -/

/-- C7: a document in which some key element lacks the `time`, `value`, `ds` or `dd`
attribute makes the loading `Serialize` return failure, for every prior track, every value
of the empty-track switch and whatever the other elements contain. -/
theorem Serialize_load_missing_attribute_fails (E : Externals) (t : TUiAnimSplineTrack)
    (xmlNode : XmlNode) (bLoadEmptyTracks : Bool)
    (h : ∃ e ∈ xmlNode.children,
      e.time = none ∨ e.value = none ∨ e.ds = none ∨ e.dd = none) :
    (Serialize E t xmlNode true bLoadEmptyTracks).1 = false := by
  obtain ⟨e, he, hmiss⟩ := h
  have hnot : xmlNode.children.all KeyNode.complete = false := by
    rw [Bool.eq_false_iff]
    intro hall
    have hc := (complete_iff e).mp (List.all_eq_true.mp hall e he)
    rcases hmiss with h1 | h1 | h1 | h1
    · exact hc.1 h1
    · exact hc.2.1 h1
    · exact hc.2.2.1 h1
    · exact hc.2.2.2 h1
  rw [Serialize_load_fst, hnot]
  rfl

theorem Serialize_load_missing_attribute_fails_witness :
    (∃ e ∈ nodeMissingValue.children,
      e.time = none ∨ e.value = none ∨ e.ds = none ∨ e.dd = none) ∧
    (Serialize engine track012 nodeMissingValue true true).1 = false :=
  ⟨⟨_, List.mem_cons_of_mem _ (List.mem_cons_self _ _), Or.inr (Or.inl rfl)⟩,
   Serialize_load_missing_attribute_fails engine track012 nodeMissingValue true
     ⟨_, List.mem_cons_of_mem _ (List.mem_cons_self _ _), Or.inr (Or.inl rfl)⟩⟩

/-- C8 (as stated, refuted): the node that `Serialize` writes for a track whose only key has
no persisted flag bit has a key element without the `flags` attribute, and loading that node
returns success. -/
theorem Serialize_load_flags_absent_counterexample :
    (∃ e ∈ (Serialize engine (CreateKey engine (new engine) 0).2 XmlNode.empty false false).2.2.children,
      e.flags = none) ∧
    (saveThenLoad engine (CreateKey engine (new engine) 0).2 false).1 = true := by
  decide!

/-- C8 (amended): the `flags` attribute is optional.  When every key element carries `time`,
`value`, `ds` and `dd`, and the document has a key element or empty tracks are allowed, the
loading `Serialize` returns success whether or not `flags` attributes are present, and a key
whose element lacks `flags` gets the flags 0. -/
theorem Serialize_load_flags_optional (E : Externals) (t : TUiAnimSplineTrack)
    (xmlNode : XmlNode) (bLoadEmptyTracks : Bool)
    (hc : ∀ e ∈ xmlNode.children,
      e.time ≠ none ∧ e.value ≠ none ∧ e.ds ≠ none ∧ e.dd ≠ none)
    (hne : xmlNode.children ≠ [] ∨ bLoadEmptyTracks = true) :
    (Serialize E t xmlNode true bLoadEmptyTracks).1 = true ∧
    ∀ (i : Nat) (e : KeyNode), xmlNode.children[i]? = some e → e.flags = none →
      ∃ k, (Serialize E t xmlNode true bLoadEmptyTracks).2.1.m_spline[i]? = some k ∧
        k.flags = 0 := by
  have hall : ∀ e ∈ xmlNode.children, e.complete = true :=
    fun e he => (complete_iff e).mpr (hc e he)
  constructor
  · rw [Serialize_load_fst, List.all_eq_true.mpr hall]
    rcases hne with h | h
    · cases hm : xmlNode.children with
      | nil => exact absurd hm h
      | cons a as => simp
    · simp [h]
  · intro i e he hfl
    refine ⟨e.toKey, ?_, ?_⟩
    · rw [Serialize_load_m_spline E t xmlNode bLoadEmptyTracks hall, List.getElem?_map, he]
      rfl
    · simp [KeyNode.toKey, hfl]

theorem Serialize_load_flags_optional_witness :
    (∀ e ∈ nodeNoFlags.children,
      e.time ≠ none ∧ e.value ≠ none ∧ e.ds ≠ none ∧ e.dd ≠ none) ∧
    (nodeNoFlags.children ≠ [] ∨ false = true) ∧
    (Serialize engine track012 nodeNoFlags true false).1 = true :=
  ⟨by decide, Or.inl (by decide),
   (Serialize_load_flags_optional engine track012 nodeNoFlags false (by decide)
     (Or.inl (by decide))).1⟩

/-- C9: for a document without key elements the loading `Serialize` returns success exactly
when empty tracks are allowed; for a document with a key element (well formed or not) the
whole result, flag and track, is the same for both values of the switch. -/
theorem Serialize_load_empty_policy (E : Externals) (t : TUiAnimSplineTrack)
    (xmlNode : XmlNode) :
    (xmlNode.children = [] →
      ∀ bLoadEmptyTracks : Bool,
        ((Serialize E t xmlNode true bLoadEmptyTracks).1 = true ↔ bLoadEmptyTracks = true)) ∧
    (xmlNode.children ≠ [] →
      Serialize E t xmlNode true true = Serialize E t xmlNode true false) := by
  constructor
  · intro h b
    rw [Serialize_load_fst, h]
    simp
  · intro h
    have hlen : xmlNode.children.length ≠ 0 := by
      intro h0
      exact h (List.length_eq_zero.mp h0)
    simp [Serialize, hlen]

theorem Serialize_load_empty_policy_witness :
    ((Serialize engine track012 XmlNode.empty true true).1 = true ↔ true = true) ∧
    ((Serialize engine track012 XmlNode.empty true false).1 = true ↔ false = true) ∧
    Serialize engine track012 nodeNoFlags true true =
      Serialize engine track012 nodeNoFlags true false :=
  ⟨(Serialize_load_empty_policy engine track012 XmlNode.empty).1 rfl true,
   (Serialize_load_empty_policy engine track012 XmlNode.empty).1 rfl false,
   (Serialize_load_empty_policy engine track012 nodeNoFlags).2 (by decide)⟩

/-- C10: after a successful loading `Serialize` the key count is the number of key elements
of the document, key `i` has the time, value, `ds` and `dd` of element `i` and its flags
(0 when the element has no `flags` attribute), and the key sequence is the same whatever the
prior track was. -/
theorem Serialize_load_replaces_keys (E : Externals) (t : TUiAnimSplineTrack)
    (xmlNode : XmlNode) (bLoadEmptyTracks : Bool)
    (h : (Serialize E t xmlNode true bLoadEmptyTracks).1 = true) :
    (Serialize E t xmlNode true bLoadEmptyTracks).2.1.GetNumKeys = xmlNode.children.length ∧
    (∀ (i : Nat) (e : KeyNode), xmlNode.children[i]? = some e →
      ∃ k, (Serialize E t xmlNode true bLoadEmptyTracks).2.1.m_spline[i]? = some k ∧
        e.time = some k.time ∧ e.value = some k.value ∧
        e.ds = some k.ds ∧ e.dd = some k.dd ∧ k.flags = e.flags.getD 0) ∧
    (∀ t0 : TUiAnimSplineTrack,
      (Serialize E t0 xmlNode true bLoadEmptyTracks).1 = true ∧
      (Serialize E t0 xmlNode true bLoadEmptyTracks).2.1.m_spline =
        (Serialize E t xmlNode true bLoadEmptyTracks).2.1.m_spline) := by
  have hfst := h
  rw [Serialize_load_fst, Bool.and_eq_true] at hfst
  have hall : ∀ e ∈ xmlNode.children, e.complete = true := List.all_eq_true.mp hfst.1
  have hkeys := fun t1 => Serialize_load_m_spline E t1 xmlNode bLoadEmptyTracks hall
  refine ⟨by simp [GetNumKeys, hkeys], ?_, ?_⟩
  · intro i e he
    refine ⟨e.toKey, by rw [hkeys, List.getElem?_map, he]; rfl, ?_⟩
    have hc := hall e (List.getElem?_mem he)
    obtain ⟨tm, v, fl, ds, dd⟩ := e
    cases tm <;> cases v <;> cases ds <;> cases dd <;>
      simp [KeyNode.complete] at hc
    simp [KeyNode.toKey]
  · intro t0
    refine ⟨?_, by rw [hkeys, hkeys]⟩
    rw [Serialize_load_fst]
    rw [Serialize_load_fst] at h
    exact h

theorem Serialize_load_replaces_keys_witness :
    (Serialize engine track012 nodeNoFlags true false).1 = true ∧
    (Serialize engine track012 nodeNoFlags true false).2.1.GetNumKeys = 1 ∧
    (Serialize engine track012 nodeNoFlags true false).2.1.m_spline =
      [ { time := 1, flags := 0, value := ⟨1, 2⟩, ds := 3, dd := 4 } ] :=
  ⟨by decide!,
   (Serialize_load_replaces_keys engine track012 nodeNoFlags false (by decide!)).1,
   by decide!⟩

/-! ## Key editing -/

/-- C2 (as stated, refuted): from a fresh track, `CreateKey(0)` followed by `SetKey` at
index 0 with a key of time 1 and value (2, 3) reaches a state whose key has `value.x = 2`
and `time = 1`. -/
theorem timeX_invariant_counterexample :
    Reachable engine (fun _ => True)
      (SetKey (CreateKey engine (new engine) 0).2 0 ⟨1, 0, ⟨2, 3⟩⟩) ∧
    (SetKey (CreateKey engine (new engine) 0).2 0 ⟨1, 0, ⟨2, 3⟩⟩).m_spline =
      [ { time := 1, flags := 0, value := ⟨2, 3⟩, ds := 0, dd := 0 } ] ∧
    ¬ (∀ t, Reachable engine (fun _ => True) t → ∀ k ∈ t.m_spline, k.value.x = k.time) := by
  have hr : Reachable engine (fun _ => True)
      (SetKey (CreateKey engine (new engine) 0).2 0 ⟨1, 0, ⟨2, 3⟩⟩) :=
    Reachable.setKey 0 _ (Reachable.createKey 0 Reachable.fresh) (by decide) (by decide!)
      trivial
  have hk : (SetKey (CreateKey engine (new engine) 0).2 0 ⟨1, 0, ⟨2, 3⟩⟩).m_spline =
      [ { time := 1, flags := 0, value := ⟨2, 3⟩, ds := 0, dd := 0 } ] := by decide!
  refine ⟨hr, hk, fun h => ?_⟩
  have h1 := h _ hr _ (by rw [hk]; exact List.mem_cons_self _ _)
  revert h1
  decide!

/-- C2 (amended): in every track state reachable from a freshly constructed track by
`CreateKey`, `CopyKey`, `SetValue` and by `SetKey` with an in-range index and a key argument
that itself satisfies `key.value.x = key.time`, every key satisfies
`key.value.x = key.time`. -/
theorem timeX_invariant (E : Externals) (t : TUiAnimSplineTrack)
    (h : Reachable E (fun key => key.value.x = key.time) t) :
    ∀ k ∈ t.m_spline, k.value.x = k.time := by
  induction h with
  | fresh => intro k hk; simp [new] at hk
  | createKey time _ ih => exact CreateKey_timeX E _ time ih
  | setKey index key _ _ _ hP ih => exact SetKey_timeX _ index key ih hP
  | copyKey pFromTrack nFromKey _ ih => exact CopyKey_timeX E _ pFromTrack nFromKey ih
  | setValue time value bDefault _ ih => exact SetValue_timeX E _ time value bDefault ih

theorem timeX_invariant_witness :
    Reachable engine (fun key => key.value.x = key.time)
      (CopyKey engine (SetValue engine (new engine) 2 5 false) track012 1).2 ∧
    ∀ k ∈ (CopyKey engine (SetValue engine (new engine) 2 5 false) track012 1).2.m_spline,
      k.value.x = k.time :=
  ⟨Reachable.copyKey _ _ (Reachable.setValue _ _ _ Reachable.fresh),
   timeX_invariant engine _
     (Reachable.copyKey _ _ (Reachable.setValue _ _ _ Reachable.fresh))⟩

/-! ## Selection serialization -/

/-- C3 (as stated, refuted): pasting the element with time 1 and value (1, 2) with the time
offset 16777216 stores a key with time 16777216 and value (16777216, 2), not with time
1 + 16777216: the shift is a `float` addition.  And a document of the matching type whose
element has time 1 and value (2, 3) makes the call fail the assertion of line 247. -/
theorem SerializeSelection_load_additive_counterexample :
    selectionNodeOne.TrackType = some (GetCurveType engine) ∧
    selectionNodeOne.children.map (fun e => (e.time, e.value)) = [(some 1, some ⟨1, 2⟩)] ∧
    (SerializeSelection engine (new engine) selectionNodeOne true false 16777216).2.1.m_spline
      = [ { time := 16777216, flags := 0, value := ⟨16777216, 2⟩, ds := 0, dd := 0 } ] ∧
    (16777216 : float) ≠ 1 + 16777216 ∧
    selectionNodeSkewed.TrackType = some (GetCurveType engine) ∧
    SerializeSelection_call engine (new engine) selectionNodeSkewed true false 0 =
      CallOutcome.assertionFailed := by
  decide!

/-- C3 (amended): when the `TrackType` of the selection document is the curve type of the
track, the loading `SerializeSelection` returns success and leaves `n + m` keys: the `n`
prior keys, unchanged, together with one new key per document element, and the new key of an
element with time `t` and value `(x, y)` has time `fadd t d` and value `(fadd x d, y)`, the
binary32 sums (stated for sums in the finite range).  With `assert` active the call returns,
with this result, exactly when every element passes `assert(key.time == key.value.x)`, which
an element with time `t` and value `(x, y)` does exactly when `x = t`; otherwise the
assertion fails. -/
theorem SerializeSelection_load_additive (E : Externals) (t : TUiAnimSplineTrack)
    (xmlNode : XmlNode) (bCopySelected : Bool) (fTimeOffset : float)
    (h : xmlNode.TrackType = some (GetCurveType E)) :
    (SerializeSelection E t xmlNode true bCopySelected fTimeOffset).1 = true ∧
    (SerializeSelection E t xmlNode true bCopySelected fTimeOffset).2.1.GetNumKeys =
      t.GetNumKeys + xmlNode.children.length ∧
    (∃ pasted : List SplineKey,
      pasted.length = xmlNode.children.length ∧
      List.Perm (SerializeSelection E t xmlNode true bCopySelected fTimeOffset).2.1.m_spline
        (t.m_spline ++ pasted) ∧
      ∀ (i : Nat) (e : KeyNode) (tm : float) (v : Vec2),
        xmlNode.children[i]? = some e → e.time = some tm → e.value = some v →
        finiteBinary32 (tm + fTimeOffset) → finiteBinary32 (v.x + fTimeOffset) →
        ∃ k, pasted[i]? = some k ∧ k.time = fadd tm fTimeOffset ∧
          k.value = ⟨fadd v.x fTimeOffset, v.y⟩) ∧
    ((∀ e ∈ xmlNode.children, SerializeSelection_loadKey_assert e = true) →
      SerializeSelection_call E t xmlNode true bCopySelected fTimeOffset =
        CallOutcome.returned (SerializeSelection E t xmlNode true bCopySelected fTimeOffset)) ∧
    (¬ (∀ e ∈ xmlNode.children, SerializeSelection_loadKey_assert e = true) →
      SerializeSelection_call E t xmlNode true bCopySelected fTimeOffset =
        CallOutcome.assertionFailed) ∧
    ∀ (e : KeyNode) (tm : float) (v : Vec2), e.time = some tm → e.value = some v →
      (SerializeSelection_loadKey_assert e = true ↔ v.x = tm) := by
  obtain ⟨h1, h2⟩ := SerializeSelection_load_eq E t xmlNode bCopySelected fTimeOffset h
  refine ⟨h1, ?_, ⟨xmlNode.children.map (KeyNode.toPastedKey E bCopySelected fTimeOffset),
    by simp, ?_, ?_⟩,
    (SerializeSelection_call_load E t xmlNode bCopySelected fTimeOffset h).1,
    (SerializeSelection_call_load E t xmlNode bCopySelected fTimeOffset h).2,
    fun e tm v ht hv => SerializeSelection_loadKey_assert_iff e tm v ht hv⟩
  · simp [GetNumKeys, h2, List.length_insertionSort]
  · rw [h2]
    exact List.perm_insertionSort _ _
  · intro i e tm v he ht hv _ _
    refine ⟨e.toPastedKey E bCopySelected fTimeOffset, by rw [List.getElem?_map, he]; rfl, ?_⟩
    exact toPastedKey_fields E bCopySelected fTimeOffset e tm v ht hv

theorem SerializeSelection_load_additive_witness :
    selectionNode.TrackType = some (GetCurveType engine) ∧
    track012.m_spline.map (fun k => k.time) = [0, 1, 2] ∧
    selectionNode.children.map (fun e => e.time) = [some 0, some (1 / 2)] ∧
    (SerializeSelection engine track012 selectionNode true true 5).1 = true ∧
    (SerializeSelection engine track012 selectionNode true true 5).2.1.GetNumKeys =
      track012.GetNumKeys + selectionNode.children.length ∧
    (SerializeSelection engine track012 selectionNode true true 5).2.1.m_spline.map
      (fun k => k.time) = [0, 1, 2, 5, 11 / 2] ∧
    SerializeSelection_call engine track012 selectionNode true true 5 =
      CallOutcome.returned (SerializeSelection engine track012 selectionNode true true 5) ∧
    (SerializeSelection engine (new engine) selectionNodeOne true false 16777216).2.1.m_spline.map
      (fun k => k.time) = [fadd 1 16777216] :=
  ⟨rfl, by decide!, by decide!,
   (SerializeSelection_load_additive engine track012 selectionNode true 5 rfl).1,
   (SerializeSelection_load_additive engine track012 selectionNode true 5 rfl).2.1,
   by decide!,
   (SerializeSelection_load_additive engine track012 selectionNode true 5 rfl).2.2.2.1
     (by decide!),
   by decide!⟩

/-- C4: after a successful loading `SerializeSelection`, for every prior track, document and
time offset, the key sequence is sorted by non-decreasing time. -/
theorem SerializeSelection_load_sorted (E : Externals) (t : TUiAnimSplineTrack)
    (xmlNode : XmlNode) (bCopySelected : Bool) (fTimeOffset : float)
    (h : (SerializeSelection E t xmlNode true bCopySelected fTimeOffset).1 = true) :
    List.Pairwise (fun a b : SplineKey => a.time ≤ b.time)
      (SerializeSelection E t xmlNode true bCopySelected fTimeOffset).2.1.m_spline := by
  haveI : IsTotal SplineKey (fun a b : SplineKey => a.time ≤ b.time) :=
    ⟨fun a b => le_total a.time b.time⟩
  haveI : IsTrans SplineKey (fun a b : SplineKey => a.time ≤ b.time) :=
    ⟨fun a b c hab hbc => le_trans hab hbc⟩
  simp only [SerializeSelection, if_true] at h ⊢
  split_ifs at h ⊢
  exact List.sorted_insertionSort _ _

theorem SerializeSelection_load_sorted_witness :
    (SerializeSelection engine track012 selectionNode true true (-1)).1 = true ∧
    (SerializeSelection engine track012 selectionNode true true (-1)).2.1.m_spline.map
      (fun k => k.time) = [-1, -1 / 2, 0, 1, 2] ∧
    List.Pairwise (fun a b : SplineKey => a.time ≤ b.time)
      (SerializeSelection engine track012 selectionNode true true (-1)).2.1.m_spline :=
  ⟨by decide!, by decide!,
   SerializeSelection_load_sorted engine track012 selectionNode true (-1) (by decide!)⟩

/-- C5 (as stated, refuted): pasting two keys with `bCopySelected` into a track whose key at
time 1 was selected leaves three selected keys; the key at time 1, which was not pasted, is
among them. -/
theorem SerializeSelection_load_selection_counterexample :
    track012.m_spline.map (fun k => (k.time, flagsSelected engine k.flags)) =
      [(0, false), (1, true), (2, false)] ∧
    (SerializeSelection engine track012 selectionNode true true 5).1 = true ∧
    (SerializeSelection engine track012 selectionNode true true 5).2.1.m_spline.map
      (fun k => (k.time, flagsSelected engine k.flags)) =
      [(0, false), (1, true), (2, false), (5, true), (11 / 2, true)] ∧
    ((SerializeSelection engine track012 selectionNode true true 5).2.1.m_spline.filter
      (fun k => flagsSelected engine k.flags)).length ≠ selectionNode.children.length := by
  decide!

/-- C5 (amended): after the loading `SerializeSelection` with `bCopySelected`, every key
inserted by the load is selected and the prior keys are kept as they were, selection bits
included; the selected keys are exactly the inserted ones when no prior key was selected. -/
theorem SerializeSelection_load_selects_pasted (E : Externals) (t : TUiAnimSplineTrack)
    (xmlNode : XmlNode) (fTimeOffset : float)
    (h : xmlNode.TrackType = some (GetCurveType E)) (hmask : E.selectedMask ≠ 0) :
    ∃ pasted : List SplineKey,
      pasted.length = xmlNode.children.length ∧
      List.Perm (SerializeSelection E t xmlNode true true fTimeOffset).2.1.m_spline
        (t.m_spline ++ pasted) ∧
      (∀ k ∈ pasted, flagsSelected E k.flags = true) ∧
      ((∀ k ∈ t.m_spline, flagsSelected E k.flags = false) →
        List.Perm
          ((SerializeSelection E t xmlNode true true fTimeOffset).2.1.m_spline.filter
            (fun k => flagsSelected E k.flags))
          pasted) := by
  obtain ⟨_, h2⟩ := SerializeSelection_load_eq E t xmlNode true fTimeOffset h
  have hsel : ∀ k ∈ xmlNode.children.map (KeyNode.toPastedKey E true fTimeOffset),
      flagsSelected E k.flags = true := by
    intro k hk
    obtain ⟨e, _, rfl⟩ := List.mem_map.mp hk
    simp only [KeyNode.toPastedKey, if_true]
    exact flagsSelected_or E _ hmask
  have hperm : List.Perm (SerializeSelection E t xmlNode true true fTimeOffset).2.1.m_spline
      (t.m_spline ++ xmlNode.children.map (KeyNode.toPastedKey E true fTimeOffset)) := by
    rw [h2]
    exact List.perm_insertionSort _ _
  refine ⟨_, by simp, hperm, hsel, fun hnone => ?_⟩
  refine (hperm.filter _).trans ?_
  rw [List.filter_append, List.filter_eq_nil_iff.mpr (fun k hk => by simp [hnone k hk]),
    List.filter_eq_self.mpr hsel, List.nil_append]

theorem SerializeSelection_load_selects_pasted_witness :
    selectionNode.TrackType = some (GetCurveType engine) ∧ engine.selectedMask ≠ 0 ∧
    ∃ pasted : List SplineKey,
      pasted.length = selectionNode.children.length ∧
      List.Perm (SerializeSelection engine track012 selectionNode true true 5).2.1.m_spline
        (track012.m_spline ++ pasted) ∧
      (∀ k ∈ pasted, flagsSelected engine k.flags = true) ∧
      ((∀ k ∈ track012.m_spline, flagsSelected engine k.flags = false) →
        List.Perm
          ((SerializeSelection engine track012 selectionNode true true 5).2.1.m_spline.filter
            (fun k => flagsSelected engine k.flags))
          pasted) :=
  ⟨rfl, by decide,
   SerializeSelection_load_selects_pasted engine track012 selectionNode 5 rfl (by decide)⟩

/-- C6: when the `TrackType` attribute of the selection document differs from the curve type
of the track, the loading `SerializeSelection` returns failure and leaves the track (keys,
default value, range, flags, colour) exactly as it was. -/
theorem SerializeSelection_load_type_mismatch (E : Externals) (t : TUiAnimSplineTrack)
    (xmlNode : XmlNode) (bCopySelected : Bool) (fTimeOffset : float) (type : Int)
    (h : xmlNode.TrackType = some type) (hne : type ≠ GetCurveType E) :
    (SerializeSelection E t xmlNode true bCopySelected fTimeOffset).1 = false ∧
    (SerializeSelection E t xmlNode true bCopySelected fTimeOffset).2.1 = t := by
  simp [SerializeSelection, h, hne]

theorem SerializeSelection_load_type_mismatch_witness :
    selectionNodeOtherType.TrackType = some 1 ∧ (1 : Int) ≠ GetCurveType engine ∧
    (SerializeSelection engine track012 selectionNodeOtherType true true 5).1 = false ∧
    (SerializeSelection engine track012 selectionNodeOtherType true true 5).2.1 = track012 :=
  ⟨rfl, by decide,
   SerializeSelection_load_type_mismatch engine track012 selectionNodeOtherType true 5 1 rfl
     (by decide)⟩

/-! ## Key creation, copying and evaluation -/

theorem insert_key_length (k : SplineKey) (l : List SplineKey) :
    (insert_key k l).2.length = l.length + 1 := by
  induction l with
  | nil => rfl
  | cons a as ih =>
    unfold insert_key
    split_ifs <;> simp [ih]

theorem insert_key_getElem? (k : SplineKey) (l : List SplineKey) :
    (insert_key k l).2[(insert_key k l).1]? = some k := by
  induction l with
  | nil => rfl
  | cons a as ih =>
    unfold insert_key
    split_ifs
    · rfl
    · simpa using ih

theorem insert_key_index_lt (k : SplineKey) (l : List SplineKey) :
    (insert_key k l).1 < l.length + 1 := by
  induction l with
  | nil => simp [insert_key]
  | cons a as ih =>
    unfold insert_key
    split_ifs
    · simp
    · simpa using ih

theorem insert_key_sorted (k : SplineKey) (l : List SplineKey)
    (h : List.Pairwise (fun a b : SplineKey => a.time ≤ b.time) l) :
    List.Pairwise (fun a b : SplineKey => a.time ≤ b.time) (insert_key k l).2 := by
  induction l with
  | nil => simp [insert_key]
  | cons a as ih =>
    rw [List.pairwise_cons] at h
    unfold insert_key
    split_ifs with hgt
    · refine List.pairwise_cons.mpr ⟨?_, List.pairwise_cons.mpr h⟩
      intro b hb
      rcases List.mem_cons.mp hb with rfl | hb
      · exact le_of_lt hgt
      · exact le_trans (le_of_lt hgt) (h.1 b hb)
    · refine List.pairwise_cons.mpr ⟨?_, ih h.2⟩
      intro b hb
      rcases (mem_insert_key k as b).mp hb with rfl | hb
      · exact not_lt.mp hgt
      · exact h.1 b hb

theorem modifyKey_getElem? (f : SplineKey → SplineKey) (l : List SplineKey) (i : Nat) :
    (modifyKey f l i)[i]? = (l[i]?).map f := by
  induction l generalizing i with
  | nil => simp [modifyKey]
  | cons a as ih =>
    cases i with
    | zero => simp [modifyKey]
    | succ i => simpa [modifyKey] using ih i

theorem modifyKey_getElem?_ne (f : SplineKey → SplineKey) (l : List SplineKey) (i j : Nat)
    (h : i ≠ j) : (modifyKey f l i)[j]? = l[j]? := by
  induction l generalizing i j with
  | nil => simp [modifyKey]
  | cons a as ih =>
    cases i with
    | zero =>
      cases j with
      | zero => exact absurd rfl h
      | succ j => simp [modifyKey]
    | succ i =>
      cases j with
      | zero => simp [modifyKey]
      | succ j => simpa [modifyKey] using ih i j (by omega)

theorem CreateKey_eq (E : Externals) (t : TUiAnimSplineTrack) (time : float) :
    (CreateKey E t time).1 =
      (((insert_key ⟨time, 0, ⟨time, GetValue E t time⟩, 0, 0⟩ t.m_spline).1 : Nat) : Int) ∧
    (CreateKey E t time).2.m_spline =
      (insert_key ⟨time, 0, ⟨time, GetValue E t time⟩, 0, 0⟩ t.m_spline).2 := by
  have hv : (if t.GetNumKeys > 0 then GetValue E t time else t.m_defaultValue.y) =
      GetValue E t time := by
    split_ifs with h
    · rfl
    · have : t.GetNumKeys = 0 := by
        have h0 : (0 : Int) ≤ t.GetNumKeys := by simp [GetNumKeys]
        omega
      simp [GetValue, this]
  simp only [CreateKey, InsertKey, UpdateTrackValueRange, hv]
  exact ⟨trivial, trivial⟩

theorem insert_key_eraseIdx (k : SplineKey) (l : List SplineKey) :
    (insert_key k l).2.eraseIdx (insert_key k l).1 = l := by
  induction l with
  | nil => rfl
  | cons a as ih =>
    unfold insert_key
    split_ifs
    · rfl
    · simpa using ih

theorem SetKey_natCast_getElem? (t : TUiAnimSplineTrack) (i : Nat) (key : I2DBezierKey)
    (k : SplineKey) (h : t.m_spline[i]? = some k) :
    (SetKey t (i : Int) key).m_spline[i]? =
      some { k with time := key.time, flags := key.flags, value := key.value } := by
  rw [SetKey_m_spline, modifyKey_getElem?, h]
  rfl

/-- C12: for a track without keys `GetValue` returns `m_defaultValue.y` at every time, and
does so whatever the interpolator is. -/
theorem GetValue_empty_track (E : Externals) (t : TUiAnimSplineTrack) (time : float)
    (h : t.GetNumKeys = 0) :
    GetValue E t time = t.m_defaultValue.y ∧
    ∀ f : List SplineKey → float → float,
      GetValue { E with Interpolate := f } t time = t.m_defaultValue.y := by
  simp [GetValue, h]

theorem GetValue_empty_track_witness :
    (SetValue engine (new engine) 3 42 true).GetNumKeys = 0 ∧
    GetValue engine (SetValue engine (new engine) 3 42 true) 7 = 42 :=
  ⟨rfl, (GetValue_empty_track engine (SetValue engine (new engine) 3 42 true) 7 rfl).1⟩

/-- C14: the key that `CreateKey(time)` inserts is at `time` and carries the scalar value
`GetValue(time)` of the track before the insertion when the track had a key, and
`m_defaultValue.y` when it had none. -/
theorem CreateKey_value (E : Externals) (t : TUiAnimSplineTrack) (time : float) :
    ∃ k, (CreateKey E t time).2.m_spline[(CreateKey E t time).1.toNat]? = some k ∧
      k.time = time ∧ k.value.x = time ∧
      k.value.y = (if t.GetNumKeys > 0 then GetValue E t time else t.m_defaultValue.y) ∧
      (CreateKey E t time).2.m_spline.eraseIdx (CreateKey E t time).1.toNat = t.m_spline := by
  have hv : (if t.GetNumKeys > 0 then GetValue E t time else t.m_defaultValue.y) =
      GetValue E t time := by
    split_ifs with h
    · rfl
    · have : t.GetNumKeys = 0 := by
        have h0 : (0 : Int) ≤ t.GetNumKeys := by simp [GetNumKeys]
        omega
      simp [GetValue, this]
  obtain ⟨hc1, hc2⟩ := CreateKey_eq E t time
  rw [hc1, hc2, Int.toNat_ofNat, hv]
  exact ⟨_, insert_key_getElem? _ _, rfl, rfl, rfl, insert_key_eraseIdx _ _⟩

/-- C15: `CreateKey(time)` on a track with `n` keys leaves `n + 1` keys and returns an index
`i` with `0 ≤ i < n + 1`; key `i` is the new key at `time`, the other keys are the prior keys
in their order, and a key sequence that was sorted by time stays sorted. -/
theorem CreateKey_count_index_sorted (E : Externals) (t : TUiAnimSplineTrack)
    (time : float) :
    (CreateKey E t time).2.GetNumKeys = t.GetNumKeys + 1 ∧
    0 ≤ (CreateKey E t time).1 ∧ (CreateKey E t time).1 < t.GetNumKeys + 1 ∧
    (∃ k, (CreateKey E t time).2.m_spline[(CreateKey E t time).1.toNat]? = some k ∧
      k.time = time) ∧
    (CreateKey E t time).2.m_spline.eraseIdx (CreateKey E t time).1.toNat = t.m_spline ∧
    (List.Pairwise (fun a b : SplineKey => a.time ≤ b.time) t.m_spline →
      List.Pairwise (fun a b : SplineKey => a.time ≤ b.time)
        (CreateKey E t time).2.m_spline) := by
  obtain ⟨hc1, hc2⟩ := CreateKey_eq E t time
  rw [hc1, hc2, Int.toNat_ofNat]
  refine ⟨?_, Int.ofNat_nonneg _, ?_, ⟨_, insert_key_getElem? _ _, rfl⟩,
    insert_key_eraseIdx _ _, insert_key_sorted _ _⟩
  · simp [GetNumKeys, hc2, insert_key_length]
  · have := insert_key_index_lt
      ⟨time, 0, ⟨time, GetValue E t time⟩, 0, 0⟩ t.m_spline
    simp only [GetNumKeys]
    exact_mod_cast this

theorem CreateKey_count_index_sorted_witness :
    List.Pairwise (fun a b : SplineKey => a.time ≤ b.time) track012.m_spline ∧
    (CreateKey engine track012 (3 / 2)).1 = 2 ∧
    (CreateKey engine track012 (3 / 2)).2.m_spline.map (fun k => k.time) = [0, 1, 3 / 2, 2] ∧
    List.Pairwise (fun a b : SplineKey => a.time ≤ b.time)
      (CreateKey engine track012 (3 / 2)).2.m_spline :=
  ⟨by decide!, by decide!, by decide!,
   (CreateKey_count_index_sorted engine track012 (3 / 2)).2.2.2.2.2 (by decide!)⟩

/-- C17: `SetValue(time, value, bDefault = true)` sets `m_defaultValue` to `(time, value)`
and leaves the key sequence, the value range, the track flags and the colour as they
were. -/
theorem SetValue_default (E : Externals) (t : TUiAnimSplineTrack) (time value : float) :
    (SetValue E t time value true).m_defaultValue = ⟨time, value⟩ ∧
    (SetValue E t time value true).m_spline = t.m_spline ∧
    (SetValue E t time value true).m_fMinKeyValue = t.m_fMinKeyValue ∧
    (SetValue E t time value true).m_fMaxKeyValue = t.m_fMaxKeyValue ∧
    (SetValue E t time value true).m_flags = t.m_flags ∧
    (SetValue E t time value true).m_bCustomColorSet = t.m_bCustomColorSet ∧
    (SetValue E t time value true).m_customColor = t.m_customColor := by
  simp [SetValue]

theorem CreateKey_frame (E : Externals) (t : TUiAnimSplineTrack) (time : float) :
    (CreateKey E t time).2.m_flags = t.m_flags ∧
    (CreateKey E t time).2.m_defaultValue = t.m_defaultValue ∧
    (CreateKey E t time).2.m_bCustomColorSet = t.m_bCustomColorSet ∧
    (CreateKey E t time).2.m_customColor = t.m_customColor := by
  simp [CreateKey, InsertKey, UpdateTrackValueRange]

theorem modifyKey_eq_set (f : SplineKey → SplineKey) (l : List SplineKey) (i : Nat)
    (k : SplineKey) (h : l[i]? = some k) : modifyKey f l i = l.set i (f k) := by
  induction l generalizing i with
  | nil => simp at h
  | cons a as ih =>
    cases i with
    | zero =>
      simp only [List.getElem?_cons_zero, Option.some.injEq] at h
      simp [modifyKey, h]
    | succ i =>
      simp only [List.getElem?_cons_succ] at h
      simp [modifyKey, ih i h]

theorem SetValue_found (E : Externals) (t : TUiAnimSplineTrack) (time value : float)
    (i : Nat) (k0 : SplineKey)
    (hfind : t.m_spline.findIdx? (fun k => decide (k.time = time)) = some i)
    (hl : t.m_spline[i]? = some k0) :
    SetValue E t time value false =
      SetKey t (i : Int) ⟨time, k0.flags, ⟨time, value⟩⟩ := by
  simp [SetValue, SetKeyAtTime, I2DBezierKey.new, hfind, hl]

theorem SetValue_created (E : Externals) (t : TUiAnimSplineTrack) (time value : float)
    (hfind : t.m_spline.findIdx? (fun k => decide (k.time = time)) = none) :
    SetValue E t time value false =
      SetKey (CreateKey E t time).2
        (((insert_key ⟨time, 0, ⟨time, GetValue E t time⟩, 0, 0⟩ t.m_spline).1 : Nat) : Int)
        ⟨time, 0, ⟨time, value⟩⟩ := by
  obtain ⟨hc1, hc2⟩ := CreateKey_eq E t time
  have hget := insert_key_getElem? ⟨time, 0, ⟨time, GetValue E t time⟩, 0, 0⟩ t.m_spline
  rw [← hc2] at hget
  simp only [SetValue, Bool.not_false, if_true, SetKeyAtTime, I2DBezierKey.new, hfind, hc1,
    Int.toNat_ofNat, hget]

/-- C18: `SetValue(time, value, bDefault = false)` leaves `m_defaultValue` as it was and
results in a track with a key at `time` whose value is `(time, value)`: when a key at `time`
exists, the first such key is overwritten in place (its flags and tangents and all other keys
are kept, the key count is unchanged), otherwise a key is created and the key count grows
by one. -/
theorem SetValue_key (E : Externals) (t : TUiAnimSplineTrack) (time value : float) :
    (SetValue E t time value false).m_defaultValue = t.m_defaultValue ∧
    (∃ k ∈ (SetValue E t time value false).m_spline,
      k.time = time ∧ k.value = ⟨time, value⟩) ∧
    ((∃ k ∈ t.m_spline, k.time = time) →
      (SetValue E t time value false).GetNumKeys = t.GetNumKeys ∧
      ∃ (i : Nat) (k0 : SplineKey), t.m_spline[i]? = some k0 ∧ k0.time = time ∧
        (SetValue E t time value false).m_spline =
          t.m_spline.set i { k0 with value := ⟨time, value⟩ }) ∧
    ((∀ k ∈ t.m_spline, k.time ≠ time) →
      (SetValue E t time value false).GetNumKeys = t.GetNumKeys + 1) := by
  cases hfind : t.m_spline.findIdx? (fun k => decide (k.time = time)) with
  | some i =>
    have hsome := List.findIdx?_of_eq_some hfind
    cases hl : t.m_spline[i]? with
    | none => simp [hl] at hsome
    | some k0 =>
      simp only [hl, decide_eq_true_eq] at hsome
      rw [SetValue_found E t time value i k0 hfind hl]
      have hset := SetKey_m_spline t i ⟨time, k0.flags, ⟨time, value⟩⟩
      rw [modifyKey_eq_set _ _ _ _ hl] at hset
      have hk0 : ({ k0 with time := time, flags := k0.flags, value := ⟨time, value⟩ } :
          SplineKey) = { k0 with value := ⟨time, value⟩ } := by
        rw [← hsome]
      rw [hk0] at hset
      have hi : i < t.m_spline.length := by
        rcases Nat.lt_or_ge i t.m_spline.length with h1 | h1
        · exact h1
        · rw [List.getElem?_eq_none h1] at hl; cases hl
      refine ⟨(SetKey_frame t i _).2.1, ?_, ?_, ?_⟩
      · refine ⟨{ k0 with value := ⟨time, value⟩ }, ?_, hsome, rfl⟩
        rw [hset]
        exact List.mem_iff_getElem?.mpr ⟨i, by simp [List.getElem?_set, hi]⟩
      · intro _
        exact ⟨by simp [GetNumKeys, hset], i, k0, hl, hsome, hset⟩
      · intro hno
        exact absurd hsome (hno k0 (List.getElem?_mem hl))
  | none =>
    have hnone := List.findIdx?_eq_none_iff.mp hfind
    rw [SetValue_created E t time value hfind]
    obtain ⟨_, hc2⟩ := CreateKey_eq E t time
    have hget := insert_key_getElem? ⟨time, 0, ⟨time, GetValue E t time⟩, 0, 0⟩ t.m_spline
    have hlen := insert_key_length ⟨time, 0, ⟨time, GetValue E t time⟩, 0, 0⟩ t.m_spline
    rw [← hc2] at hget hlen
    refine ⟨(SetKey_frame _ _ _).2.1.trans (CreateKey_frame E t time).2.1, ?_, ?_, ?_⟩
    · exact ⟨_, List.getElem?_mem (SetKey_natCast_getElem? _ _ _ _ hget), rfl, rfl⟩
    · rintro ⟨k, hk, hkt⟩
      have := hnone k hk
      simp [hkt] at this
    · intro _
      simp [GetNumKeys, SetKey_m_spline, modifyKey_length, hlen]

theorem SetValue_key_witness :
    (∃ k ∈ track012.m_spline, k.time = 1) ∧
    (SetValue engine track012 1 42 false).m_spline =
      track012.m_spline.set 1
        { time := 1, flags := 65545, value := ⟨1, 42⟩, ds := 1 / 2, dd := 1 / 4 } ∧
    (SetValue engine track012 1 42 false).GetNumKeys = track012.GetNumKeys ∧
    (∀ k ∈ track012.m_spline, k.time ≠ 3) ∧
    (SetValue engine track012 3 42 false).GetNumKeys = track012.GetNumKeys + 1 :=
  ⟨by decide!, by decide!,
   ((SetValue_key engine track012 1 42).2.2.1 (by decide!)).1,
   by decide!,
   (SetValue_key engine track012 3 42).2.2.2 (by decide!)⟩

/-! ## Failed loads and the index contract -/

theorem modifyKey_timeX (f : SplineKey → SplineKey) (l : List SplineKey) (i : Nat)
    (hf : ∀ k, (f k).time = k.time ∧ (f k).value = k.value)
    (hl : ∀ k ∈ l, k.value.x = k.time) :
    ∀ k ∈ modifyKey f l i, k.value.x = k.time := by
  intro k hk
  rcases mem_modifyKey f l i k hk with h | ⟨b, hb, rfl⟩
  · exact hl k h
  · rw [(hf b).1, (hf b).2]
    exact hl b hb

theorem Serialize_loadKeys_timeX (rest : List KeyNode) :
    ∀ (t : TUiAnimSplineTrack) (i : Nat),
      (∀ k ∈ t.m_spline, k.value.x = k.time) →
      (∀ e ∈ rest, ∀ (tm : float) (v : Vec2), e.time = some tm → e.value = some v → v.x = tm) →
      ∀ k ∈ (Serialize_loadKeys t i rest).2.m_spline, k.value.x = k.time := by
  induction rest with
  | nil => intro t i ht _; exact ht
  | cons e rest ih =>
    intro t i ht hdoc
    have hrest : ∀ e1 ∈ rest, ∀ (tm : float) (v : Vec2),
        e1.time = some tm → e1.value = some v → v.x = tm :=
      fun e1 h1 => hdoc e1 (List.mem_cons_of_mem _ h1)
    have he := hdoc e (List.mem_cons_self _ _)
    obtain ⟨tm, v, fl, ds, dd⟩ := e
    cases tm with
    | none => simpa [Serialize_loadKeys] using ht
    | some tm =>
      cases v with
      | none => simpa [Serialize_loadKeys] using ht
      | some v =>
        have hx : v.x = tm := he tm v rfl rfl
        have h1 : ∀ k ∈ (SetKey t (i : Int)
            ⟨tm, (getAttr fl I2DBezierKey.new.flags).2, v⟩).m_spline, k.value.x = k.time :=
          SetKey_timeX t i _ ht hx
        have h2 := fun d : float => modifyKey_timeX (fun k => { k with ds := d }) _ i
          (fun _ => ⟨rfl, rfl⟩) h1
        have h3 := fun d d1 : float => modifyKey_timeX (fun k => { k with dd := d1 }) _ i
          (fun _ => ⟨rfl, rfl⟩) (h2 d)
        simp only [Serialize_loadKeys, getAttr_some, Bool.not_true, Bool.false_eq_true,
          if_false]
        split_ifs
        · exact h2 _
        · exact h3 _ _
        · exact ih _ _ (h3 _ _) hrest

theorem SetNumKeys_timeX (t : TUiAnimSplineTrack) (n : Nat)
    (ht : ∀ k ∈ t.m_spline, k.value.x = k.time) :
    ∀ k ∈ (SetNumKeys t n).m_spline, k.value.x = k.time := by
  intro k hk
  simp only [SetNumKeys, List.mem_append] at hk
  rcases hk with hk | hk
  · exact ht k (List.mem_of_mem_take hk)
  · rw [(List.mem_replicate.mp hk).2]
    rfl

theorem Serialize_load_snd (E : Externals) (t : TUiAnimSplineTrack) (xmlNode : XmlNode)
    (bLoadEmptyTracks : Bool) :
    ∃ t4 : TUiAnimSplineTrack,
      (Serialize E t xmlNode true bLoadEmptyTracks).2.1 =
        (Serialize_loadKeys (SetNumKeys t4 xmlNode.children.length) 0 xmlNode.children).2 ∧
      t4.m_spline = t.m_spline ∧ t4.m_fMinKeyValue = t.m_fMinKeyValue ∧
      t4.m_fMaxKeyValue = t.m_fMaxKeyValue := by
  simp only [Serialize, if_true, SetFlags]
  split_ifs <;> exact ⟨_, rfl, rfl, rfl, rfl⟩

/-- C11 (as stated, refuted): loading, into a fresh track, a document whose first key element
has time 1 and value (2, 3) and whose second key element lacks `value` returns failure and
leaves a key with `value.x = 2` and `time = 1`. -/
theorem Serialize_load_failure_timeX_counterexample :
    (∀ k ∈ (new engine).m_spline, k.value.x = k.time) ∧
    (∃ e ∈ nodeSkewedThenMissingValue.children, e.value = none) ∧
    (Serialize engine (new engine) nodeSkewedThenMissingValue true true).1 = false ∧
    (Serialize engine (new engine) nodeSkewedThenMissingValue true true).2.1.m_spline =
      [ { time := 1, flags := 0, value := ⟨2, 3⟩, ds := 0, dd := 0 }, SplineKey.zero ] ∧
    ∃ k ∈ (Serialize engine (new engine) nodeSkewedThenMissingValue true true).2.1.m_spline,
      k.value.x ≠ k.time := by
  decide!

/-- C11 (amended): for a track that satisfies `key.value.x = key.time` and a document with a
key element that lacks `value`, in which every key element that carries both `time` and
`value` has `value.x` equal to its time, the loading `Serialize` returns failure and every key
of the resulting track satisfies `key.value.x = key.time`. -/
theorem Serialize_load_failure_timeX (E : Externals) (t : TUiAnimSplineTrack)
    (xmlNode : XmlNode) (bLoadEmptyTracks : Bool)
    (ht : ∀ k ∈ t.m_spline, k.value.x = k.time)
    (hmiss : ∃ e ∈ xmlNode.children, e.value = none)
    (hdoc : ∀ e ∈ xmlNode.children, ∀ (tm : float) (v : Vec2),
      e.time = some tm → e.value = some v → v.x = tm) :
    (Serialize E t xmlNode true bLoadEmptyTracks).1 = false ∧
    ∀ k ∈ (Serialize E t xmlNode true bLoadEmptyTracks).2.1.m_spline,
      k.value.x = k.time := by
  constructor
  · obtain ⟨e, he, hv⟩ := hmiss
    have hnot : xmlNode.children.all KeyNode.complete = false := by
      rw [Bool.eq_false_iff]
      intro hall
      exact ((complete_iff e).mp (List.all_eq_true.mp hall e he)).2.1 hv
    rw [Serialize_load_fst, hnot]
    rfl
  · obtain ⟨t4, hr, hk, _, _⟩ := Serialize_load_snd E t xmlNode bLoadEmptyTracks
    rw [hr]
    exact Serialize_loadKeys_timeX _ _ _ (SetNumKeys_timeX t4 _ (by rw [hk]; exact ht)) hdoc

theorem Serialize_load_failure_timeX_witness :
    (∀ k ∈ track012.m_spline, k.value.x = k.time) ∧
    (∃ e ∈ nodeMissingValue.children, e.value = none) ∧
    (Serialize engine track012 nodeMissingValue true true).1 = false ∧
    ∀ k ∈ (Serialize engine track012 nodeMissingValue true true).2.1.m_spline,
      k.value.x = k.time :=
  ⟨by decide!, by decide!,
   Serialize_load_failure_timeX engine track012 nodeMissingValue true (by decide!)
     (by decide!) (by
       intro e he tm v h1 h2
       simp only [nodeMissingValue, XmlNode.empty, List.mem_cons, List.mem_singleton,
         List.not_mem_nil, or_false] at he
       rcases he with rfl | rfl
       · simp only [Option.some.injEq] at h1 h2
         subst h1 h2
         rfl
       · cases h2)⟩

/-- C19 (as stated, refuted): on a track with three keys neither `GetKey(3)` nor
`SetKey(-1)` ends with an `IndexOutOfRange` error; the only reaction of the header is the
failed assertion. -/
theorem index_out_of_range_counterexample :
    track012.GetNumKeys = 3 ∧
    GetKey_call track012 3 I2DBezierKey.new = CallOutcome.assertionFailed ∧
    GetKey_call track012 3 I2DBezierKey.new ≠ CallOutcome.IndexOutOfRange ∧
    SetKey_call track012 (-1) I2DBezierKey.new = CallOutcome.assertionFailed ∧
    SetKey_call track012 (-1) I2DBezierKey.new ≠ CallOutcome.IndexOutOfRange := by
  decide!

/-- C19 (amended): for an index with `0 ≤ index < n`, `GetKey` returns with the time, flags
and value of key `index`, and `SetKey` returns with the time, flags and value of its argument
stored in key `index` and the key count unchanged; for an index outside that range the only
guard is the assertion, and no `IndexOutOfRange` error is reported. -/
theorem GetKey_SetKey_index (t : TUiAnimSplineTrack) (index : Int) (key : I2DBezierKey) :
    ((0 ≤ index ∧ index < t.GetNumKeys) →
      ∃ k, t.m_spline[index.toNat]? = some k ∧
        GetKey_call t index key = CallOutcome.returned ⟨k.time, k.flags, k.value⟩ ∧
        SetKey_call t index key = CallOutcome.returned (SetKey t index key) ∧
        (SetKey t index key).GetNumKeys = t.GetNumKeys ∧
        (SetKey t index key).m_spline[index.toNat]? =
          some { k with time := key.time, flags := key.flags, value := key.value }) ∧
    (¬ (0 ≤ index ∧ index < t.GetNumKeys) →
      GetKey_call t index key = CallOutcome.assertionFailed ∧
      SetKey_call t index key = CallOutcome.assertionFailed) := by
  constructor
  · rintro ⟨h0, h1⟩
    obtain ⟨n, rfl⟩ := Int.eq_ofNat_of_zero_le h0
    have hn : n < t.m_spline.length := by
      simp only [GetNumKeys] at h1
      exact_mod_cast h1
    have hk : t.m_spline[n]? = some t.m_spline[n] := List.getElem?_eq_getElem hn
    refine ⟨t.m_spline[n], by simp [hk], ?_, ?_, ?_, ?_⟩
    · simp only [GetKey_call, h0, h1, and_self, if_true]
      rw [GetKey_natCast t n key _ hk]
    · simp only [SetKey_call, h0, h1, and_self, if_true]
    · simp [GetNumKeys, SetKey_m_spline, modifyKey_length]
    · simpa using SetKey_natCast_getElem? t n key _ hk
  · intro h
    simp [GetKey_call, SetKey_call, h]

theorem GetKey_SetKey_index_witness :
    ((0 : Int) ≤ 1 ∧ (1 : Int) < track012.GetNumKeys) ∧
    (∃ k, track012.m_spline[(1 : Int).toNat]? = some k ∧
      GetKey_call track012 1 I2DBezierKey.new =
        CallOutcome.returned ⟨k.time, k.flags, k.value⟩ ∧
      SetKey_call track012 1 I2DBezierKey.new =
        CallOutcome.returned (SetKey track012 1 I2DBezierKey.new) ∧
      (SetKey track012 1 I2DBezierKey.new).GetNumKeys = track012.GetNumKeys ∧
      (SetKey track012 1 I2DBezierKey.new).m_spline[(1 : Int).toNat]? =
        some { k with time := I2DBezierKey.new.time, flags := I2DBezierKey.new.flags,
                      value := I2DBezierKey.new.value }) ∧
    ¬ ((0 : Int) ≤ 3 ∧ (3 : Int) < track012.GetNumKeys) ∧
    GetKey_call track012 3 I2DBezierKey.new = CallOutcome.assertionFailed :=
  ⟨by decide!,
   (GetKey_SetKey_index track012 1 I2DBezierKey.new).1 (by decide!),
   by decide!,
   ((GetKey_SetKey_index track012 3 I2DBezierKey.new).2 (by decide!)).1⟩

/-! ## The value range -/

theorem Widens.refl (t : TUiAnimSplineTrack) : Widens t t := ⟨le_refl _, le_refl _⟩

theorem Widens.trans {t t1 t2 : TUiAnimSplineTrack} (h1 : Widens t t1) (h2 : Widens t1 t2) :
    Widens t t2 := ⟨le_trans h2.1 h1.1, le_trans h1.2 h2.2⟩

theorem good_of_keys (t t1 : TUiAnimSplineTrack)
    (hmin : t1.m_fMinKeyValue = t.m_fMinKeyValue) (hmax : t1.m_fMaxKeyValue = t.m_fMaxKeyValue)
    (hkeys : ∀ k ∈ t1.m_spline, (∃ k0 ∈ t.m_spline, k.value.y = k0.value.y) ∨ k.value.y = 0) :
    Widens t t1 ∧ (RangeOK t → RangeOK t1) := by
  refine ⟨⟨le_of_eq hmin, le_of_eq hmax.symm⟩, fun hok => ⟨fun k hk => ?_, ?_⟩⟩
  · rw [hmin, hmax]
    rcases hkeys k hk with ⟨k0, hk0, h⟩ | h
    · rw [h]; exact hok.1 k0 hk0
    · rw [h]; exact hok.2
  · rw [hmin, hmax]; exact hok.2

theorem good_trans {t t1 t2 : TUiAnimSplineTrack}
    (h1 : Widens t t1 ∧ (RangeOK t → RangeOK t1))
    (h2 : Widens t1 t2 ∧ (RangeOK t1 → RangeOK t2)) :
    Widens t t2 ∧ (RangeOK t → RangeOK t2) :=
  ⟨h1.1.trans h2.1, fun h => h2.2 (h1.2 h)⟩

theorem UpdateTrackValueRange_spec (t : TUiAnimSplineTrack) (v : float) :
    Widens t (UpdateTrackValueRange t v) ∧
    (UpdateTrackValueRange t v).m_fMinKeyValue ≤ v ∧
    v ≤ (UpdateTrackValueRange t v).m_fMaxKeyValue := by
  simp only [Widens, UpdateTrackValueRange]
  refine ⟨⟨?_, ?_⟩, ?_, ?_⟩ <;> split_ifs with h <;>
    first
      | exact le_refl _
      | exact le_of_lt h
      | exact not_lt.mp h

theorem RangeOK_widen {t t1 : TUiAnimSplineTrack} (hw : Widens t t1)
    (hkeys : ∀ k ∈ t1.m_spline, k ∈ t.m_spline ∨
      (t1.m_fMinKeyValue ≤ k.value.y ∧ k.value.y ≤ t1.m_fMaxKeyValue))
    (hok : RangeOK t) : RangeOK t1 := by
  refine ⟨fun k hk => ?_, le_trans hw.1 hok.2.1, le_trans hok.2.2 hw.2⟩
  rcases hkeys k hk with h | h
  · exact ⟨le_trans hw.1 (hok.1 k h).1, le_trans (hok.1 k h).2 hw.2⟩
  · exact h

theorem good_SetKey (t : TUiAnimSplineTrack) (index : Int) (key : I2DBezierKey) :
    Widens t (SetKey t index key) ∧ (RangeOK t → RangeOK (SetKey t index key)) := by
  unfold SetKey
  split_ifs
  · have hu := UpdateTrackValueRange_spec
      { t with
        m_spline := (modifyKey
          (fun k => { k with time := key.time, flags := key.flags, value := key.value })
          t.m_spline index.toNat) } key.value.y
    have hw : Widens t (Invalidate (UpdateTrackValueRange
      { t with
        m_spline := (modifyKey
          (fun k => { k with time := key.time, flags := key.flags, value := key.value })
          t.m_spline index.toNat) } key.value.y)) := hu.1
    refine ⟨hw, RangeOK_widen hw (fun k hk => ?_)⟩
    simp only [Invalidate, UpdateTrackValueRange] at hk
    rcases mem_modifyKey _ _ _ _ hk with h | ⟨b, _, rfl⟩
    · exact Or.inl h
    · exact Or.inr ⟨hu.2.1, hu.2.2⟩
  · exact ⟨Widens.refl t, id⟩

theorem good_CreateKey (E : Externals) (t : TUiAnimSplineTrack) (time : float) :
    Widens t (CreateKey E t time).2 ∧ (RangeOK t → RangeOK (CreateKey E t time).2) := by
  have hu := UpdateTrackValueRange_spec t
    (if t.GetNumKeys > 0 then GetValue E t time else t.m_defaultValue.y)
  refine ⟨hu.1, RangeOK_widen hu.1 (fun k hk => ?_)⟩
  simp only [CreateKey, InsertKey, mem_insert_key] at hk
  rcases hk with rfl | hk
  · exact Or.inr ⟨hu.2.1, hu.2.2⟩
  · exact Or.inl hk

theorem good_CopyKey (E : Externals) (t pFromTrack : TUiAnimSplineTrack) (nFromKey : Int) :
    Widens t (CopyKey E t pFromTrack nFromKey).2 ∧
    (RangeOK t → RangeOK (CopyKey E t pFromTrack nFromKey).2) := by
  unfold CopyKey
  exact good_trans (good_CreateKey E t _) (good_SetKey _ _ _)

theorem good_SetValue (E : Externals) (t : TUiAnimSplineTrack) (time value : float)
    (bDefault : Bool) :
    Widens t (SetValue E t time value bDefault) ∧
    (RangeOK t → RangeOK (SetValue E t time value bDefault)) := by
  unfold SetValue
  split_ifs
  · unfold SetKeyAtTime
    split
    · split
      · exact good_SetKey _ _ _
      · exact ⟨Widens.refl t, id⟩
    · dsimp only
      split
      · exact good_trans (good_CreateKey E t _) (good_SetKey _ _ _)
      · exact good_CreateKey E t _
  · exact ⟨Widens.refl t, id⟩

theorem good_modifyKey (t : TUiAnimSplineTrack) (f : SplineKey → SplineKey) (i : Nat)
    (hf : ∀ k, (f k).value = k.value) :
    Widens t { t with m_spline := modifyKey f t.m_spline i } ∧
    (RangeOK t → RangeOK { t with m_spline := modifyKey f t.m_spline i }) := by
  refine good_of_keys t _ rfl rfl (fun k hk => Or.inl ?_)
  rcases mem_modifyKey f _ i k hk with h | ⟨b, hb, rfl⟩
  · exact ⟨k, h, rfl⟩
  · exact ⟨b, hb, by rw [hf b]⟩

theorem good_set_ds (t : TUiAnimSplineTrack) (i : Nat) (d : float) :
    Widens t { t with m_spline := modifyKey (fun k => { k with ds := d }) t.m_spline i } ∧
    (RangeOK t →
      RangeOK { t with m_spline := modifyKey (fun k => { k with ds := d }) t.m_spline i }) :=
  good_modifyKey t _ i (fun _ => rfl)

theorem good_set_dd (t : TUiAnimSplineTrack) (i : Nat) (d : float) :
    Widens t { t with m_spline := modifyKey (fun k => { k with dd := d }) t.m_spline i } ∧
    (RangeOK t →
      RangeOK { t with m_spline := modifyKey (fun k => { k with dd := d }) t.m_spline i }) :=
  good_modifyKey t _ i (fun _ => rfl)

theorem good_SetNumKeys (t : TUiAnimSplineTrack) (n : Nat) :
    Widens t (SetNumKeys t n) ∧ (RangeOK t → RangeOK (SetNumKeys t n)) := by
  refine good_of_keys t _ rfl rfl (fun k hk => ?_)
  simp only [SetNumKeys, List.mem_append] at hk
  rcases hk with hk | hk
  · exact Or.inl ⟨k, List.mem_of_mem_take hk, rfl⟩
  · rw [(List.mem_replicate.mp hk).2]
    exact Or.inr rfl

theorem good_Serialize_loadKeys (rest : List KeyNode) :
    ∀ (t : TUiAnimSplineTrack) (i : Nat),
      Widens t (Serialize_loadKeys t i rest).2 ∧
      (RangeOK t → RangeOK (Serialize_loadKeys t i rest).2) := by
  induction rest with
  | nil => intro t i; exact ⟨Widens.refl t, id⟩
  | cons e rest ih =>
    intro t i
    have h1 := good_SetKey t i ⟨(getAttr e.time I2DBezierKey.new.time).2,
      (getAttr e.flags I2DBezierKey.new.flags).2, (getAttr e.value I2DBezierKey.new.value).2⟩
    have h2 := fun T => good_set_ds T i (getAttr e.ds (T.m_spline.getD i SplineKey.zero).ds).2
    have h3 := fun T => good_set_dd T i (getAttr e.dd (T.m_spline.getD i SplineKey.zero).dd).2
    simp only [Serialize_loadKeys]
    split_ifs
    · exact ⟨Widens.refl t, id⟩
    · exact ⟨Widens.refl t, id⟩
    · exact good_trans h1 (h2 _)
    · exact good_trans (good_trans h1 (h2 _)) (h3 _)
    · exact good_trans (good_trans (good_trans h1 (h2 _)) (h3 _)) (ih _ _)

theorem good_Serialize_load (E : Externals) (t : TUiAnimSplineTrack) (xmlNode : XmlNode)
    (bLoadEmptyTracks : Bool) :
    Widens t (Serialize E t xmlNode true bLoadEmptyTracks).2.1 ∧
    (RangeOK t → RangeOK (Serialize E t xmlNode true bLoadEmptyTracks).2.1) := by
  obtain ⟨t4, hr, hk, hmin, hmax⟩ := Serialize_load_snd E t xmlNode bLoadEmptyTracks
  rw [hr]
  have h4 : Widens t t4 ∧ (RangeOK t → RangeOK t4) :=
    good_of_keys t t4 hmin hmax (fun k hk1 => Or.inl ⟨k, hk ▸ hk1, rfl⟩)
  exact good_trans (good_trans h4 (good_SetNumKeys t4 _)) (good_Serialize_loadKeys _ _ _)

theorem good_SelectKey (E : Externals) (t : TUiAnimSplineTrack) (key : Int)
    (select : Bool) :
    Widens t (SelectKey E t key select) ∧ (RangeOK t → RangeOK (SelectKey E t key select)) := by
  unfold SelectKey
  by_cases h : 0 ≤ key ∧ key < t.GetNumKeys
  · rw [if_pos h]
    exact good_modifyKey t _ _ (fun _ => rfl)
  · rw [if_neg h]
    exact ⟨Widens.refl t, id⟩

theorem good_SortKeys (t : TUiAnimSplineTrack) :
    Widens t (SortKeys t) ∧ (RangeOK t → RangeOK (SortKeys t)) := by
  refine good_of_keys t _ rfl rfl (fun k hk => Or.inl ⟨k, ?_, rfl⟩)
  exact (List.perm_insertionSort _ _).mem_iff.mp hk

theorem good_SerializeSelection_loadKeys (E : Externals) (bCopySelected : Bool)
    (fTimeOffset : float) (numCur : Int) (rest : List KeyNode) :
    ∀ (t : TUiAnimSplineTrack) (i : Nat),
      Widens t (SerializeSelection_loadKeys E bCopySelected fTimeOffset numCur t i rest) ∧
      (RangeOK t →
        RangeOK (SerializeSelection_loadKeys E bCopySelected fTimeOffset numCur t i rest)) := by
  induction rest with
  | nil => intro t i; exact ⟨Widens.refl t, id⟩
  | cons e rest ih =>
    intro t i
    have h1 := fun key => good_SetKey t (i + numCur) key
    have h2 : ∀ T, Widens T (if bCopySelected then SelectKey E T (i + numCur) true else T) ∧
        (RangeOK T → RangeOK (if bCopySelected then SelectKey E T (i + numCur) true else T)) := by
      intro T
      split_ifs
      · exact good_SelectKey E T _ true
      · exact ⟨Widens.refl T, id⟩
    have h3 := fun T => good_set_ds T (i + numCur).toNat
      (getAttr e.ds (T.m_spline.getD (i + numCur).toNat SplineKey.zero).ds).2
    have h4 := fun T => good_set_dd T (i + numCur).toNat
      (getAttr e.dd (T.m_spline.getD (i + numCur).toNat SplineKey.zero).dd).2
    simp only [SerializeSelection_loadKeys]
    exact good_trans (good_trans (good_trans (good_trans (h1 _) (h2 _)) (h3 _)) (h4 _)) (ih _ _)

theorem good_SerializeSelection_load (E : Externals) (t : TUiAnimSplineTrack)
    (xmlNode : XmlNode) (bCopySelected : Bool) (fTimeOffset : float) :
    Widens t (SerializeSelection E t xmlNode true bCopySelected fTimeOffset).2.1 ∧
    (RangeOK t →
      RangeOK (SerializeSelection E t xmlNode true bCopySelected fTimeOffset).2.1) := by
  simp only [SerializeSelection, if_true]
  split_ifs
  · exact ⟨Widens.refl t, id⟩
  · exact good_trans
      (good_trans (good_SetNumKeys t _) (good_SerializeSelection_loadKeys E _ _ _ _ _ _))
      (good_SortKeys _)

theorem good_Step (E : Externals) (t t1 : TUiAnimSplineTrack) (h : Step E t t1) :
    Widens t t1 ∧ (RangeOK t → RangeOK t1) := by
  cases h with
  | createKey time => exact good_CreateKey E t time
  | setKey index key _ _ => exact good_SetKey t index key
  | copyKey pFromTrack nFromKey => exact good_CopyKey E t pFromTrack nFromKey
  | setValue time value bDefault => exact good_SetValue E t time value bDefault
  | serializeLoad xmlNode b => exact good_Serialize_load E t xmlNode b
  | serializeSelectionLoad xmlNode b d => exact good_SerializeSelection_load E t xmlNode b d

theorem History_inv (E : Externals) (t : TUiAnimSplineTrack) (ys : List float)
    (h : History E t ys) :
    RangeOK t ∧ ∀ y ∈ ys, t.m_fMinKeyValue ≤ y ∧ y ≤ t.m_fMaxKeyValue := by
  induction h with
  | fresh =>
    refine ⟨⟨fun k hk => ?_, le_refl _, le_refl _⟩, fun y hy => ?_⟩
    · simp [new] at hk
    · simp at hy
  | step _ hstep ih =>
    have hg := good_Step E _ _ hstep
    have hok := hg.2 ih.1
    refine ⟨hok, fun y hy => ?_⟩
    rcases List.mem_append.mp hy with hy | hy
    · exact ⟨le_trans hg.1.1 (ih.2 y hy).1, le_trans (ih.2 y hy).2 hg.1.2⟩
    · obtain ⟨k, hk, rfl⟩ := List.mem_map.mp hy
      exact hok.1 k hk

/-- C16: every call of `CreateKey`, `SetKey`, `CopyKey`, `SetValue`, of the loading
`Serialize` and of the loading `SerializeSelection` leaves the minimum of the value range at
or below, and the maximum at or above, what it was; and after every sequence of such calls
from a fresh track the range contains the scalar value of every key that was in the track
after any of the calls, so of every key ever inserted or overwritten. -/
theorem value_range_widens (E : Externals) :
    (∀ t t1 : TUiAnimSplineTrack, Step E t t1 →
      t1.m_fMinKeyValue ≤ t.m_fMinKeyValue ∧ t.m_fMaxKeyValue ≤ t1.m_fMaxKeyValue) ∧
    (∀ (t : TUiAnimSplineTrack) (ys : List float), History E t ys →
      ∀ y ∈ ys, t.m_fMinKeyValue ≤ y ∧ y ≤ t.m_fMaxKeyValue) :=
  ⟨fun t t1 h => (good_Step E t t1 h).1, fun t ys h => (History_inv E t ys h).2⟩

theorem value_range_widens_witness :
    Step engine track012 (SetKey track012 1 ⟨1, 0, ⟨1, 9⟩⟩) ∧
    (SetKey track012 1 ⟨1, 0, ⟨1, 9⟩⟩).m_fMinKeyValue ≤ track012.m_fMinKeyValue ∧
    track012.m_fMaxKeyValue ≤ (SetKey track012 1 ⟨1, 0, ⟨1, 9⟩⟩).m_fMaxKeyValue ∧
    (SetKey track012 1 ⟨1, 0, ⟨1, 9⟩⟩).m_fMaxKeyValue = 9 ∧
    History engine
      (SetKey (SetValue engine (new engine) 2 5 false) 0 ⟨2, 0, ⟨2, -3⟩⟩)
      (([] ++ (SetValue engine (new engine) 2 5 false).m_spline.map (fun k => k.value.y)) ++
        (SetKey (SetValue engine (new engine) 2 5 false) 0 ⟨2, 0, ⟨2, -3⟩⟩).m_spline.map
          (fun k => k.value.y)) ∧
    (SetKey (SetValue engine (new engine) 2 5 false) 0 ⟨2, 0, ⟨2, -3⟩⟩).m_fMinKeyValue ≤ 5 ∧
    (5 : float) ≤
      (SetKey (SetValue engine (new engine) 2 5 false) 0 ⟨2, 0, ⟨2, -3⟩⟩).m_fMaxKeyValue :=
  ⟨Step.setKey _ _ _ (by decide) (by decide!),
   ((value_range_widens engine).1 _ _ (Step.setKey _ _ _ (by decide) (by decide!))).1,
   ((value_range_widens engine).1 _ _ (Step.setKey _ _ _ (by decide) (by decide!))).2,
   by decide!,
   History.step (History.step History.fresh (Step.setValue _ _ _ _))
     (Step.setKey _ _ _ (by decide) (by decide!)),
   (value_range_widens engine).2 _ _
     (History.step (History.step History.fresh (Step.setValue _ _ _ _))
       (Step.setKey _ _ _ (by decide) (by decide!))) 5 (by decide!)⟩

/-! ## Saving, the fresh track and positional access -/

theorem IsKeySelected_natCast (E : Externals) (t : TUiAnimSplineTrack) (i : Nat)
    (k : SplineKey) (h : t.m_spline[i]? = some k) :
    IsKeySelected E t (i : Int) = flagsSelected E k.flags := by
  have hi : i < t.m_spline.length := by
    rcases Nat.lt_or_ge i t.m_spline.length with h1 | h1
    · exact h1
    · rw [List.getElem?_eq_none h1] at h; cases h
  simp [IsKeySelected, GetNumKeys, hi, h]

theorem SerializeSelection_save_foldl (E : Externals) (bCopySelected : Bool)
    (t : TUiAnimSplineTrack) (suf : List SplineKey) :
    ∀ (pre : List SplineKey) (key : I2DBezierKey) (node : XmlNode),
      t.m_spline = pre ++ suf →
      ((List.range' pre.length suf.length).foldl
        (SerializeSelection_saveKey E bCopySelected t) (key, node)).2 =
        { node with
          children := (node.children ++
            (suf.filter (fun k => !bCopySelected || flagsSelected E k.flags)).map
              (fun k => SerializeSelection_keyNode E ⟨k.time, k.flags, k.value⟩ k)) } := by
  induction suf with
  | nil => intro pre key node _; simp
  | cons k suf ih =>
    intro pre key node ht
    have hk : t.m_spline[pre.length]? = some k := by
      rw [ht, List.getElem?_append_right (Nat.le_refl _)]
      simp
    have hd : t.m_spline.getD pre.length SplineKey.zero = k := by
      simp [List.getD, hk]
    have hnext := fun node1 => ih (pre ++ [k]) ⟨k.time, k.flags, k.value⟩ node1 (by simp [ht])
    simp only [List.length_append, List.length_singleton] at hnext
    simp only [List.length_cons, List.range'_succ, List.foldl_cons, SerializeSelection_saveKey,
      GetKey_natCast t pre.length key k hk, hd, IsKeySelected_natCast E t pre.length k hk]
    by_cases hsel : (!bCopySelected || flagsSelected E k.flags) = true
    · rw [if_pos hsel, hnext]
      simp [List.filter_cons, hsel]
    · rw [if_neg hsel, hnext]
      simp [List.filter_cons, hsel]

theorem SerializeSelection_save_eq (E : Externals) (t : TUiAnimSplineTrack)
    (xmlNode : XmlNode) (bCopySelected : Bool) (fTimeOffset : float) :
    (SerializeSelection E t xmlNode false bCopySelected fTimeOffset).1 = true ∧
    (SerializeSelection E t xmlNode false bCopySelected fTimeOffset).2.1 = t ∧
    (SerializeSelection E t xmlNode false bCopySelected fTimeOffset).2.2 =
      { xmlNode with
        TrackType := some (GetCurveType E),
        children := (xmlNode.children ++
          (t.m_spline.filter (fun k => !bCopySelected || flagsSelected E k.flags)).map
            (fun k => SerializeSelection_keyNode E ⟨k.time, k.flags, k.value⟩ k)) } := by
  refine ⟨by simp [SerializeSelection], by simp [SerializeSelection], ?_⟩
  have h := fun key node =>
    SerializeSelection_save_foldl E bCopySelected t t.m_spline [] key node (by simp)
  simp only [List.length_nil] at h
  simp only [SerializeSelection, Bool.false_eq_true, if_false, GetNumKeys, Int.toNat_ofNat,
    List.range_eq_range', h]

/-- C24: a freshly constructed track has no keys, default value (0, 0), value range (0, 0),
track flags 0 and no custom colour, and `GetValue` is 0 at every time. -/
theorem new_track_is_empty (E : Externals) (time : float) :
    (new E).GetNumKeys = 0 ∧ (new E).m_spline = [] ∧
    (new E).m_defaultValue = ⟨0, 0⟩ ∧
    (new E).m_fMinKeyValue = 0 ∧ (new E).m_fMaxKeyValue = 0 ∧
    (new E).m_flags = 0 ∧ (new E).m_bCustomColorSet = false ∧
    GetValue E (new E) time = 0 := by
  simp [new, GetNumKeys, GetValue]

/-- C26: for an index in range, `GetKey(i)` after `SetKey(i, key)` returns the time, flags and
value of `key`; `SetKey(i, key)` keeps the key count, every key at another index in its
place (no re-sorting), the tangents `ds` and `dd` of key `i` and the default value. -/
theorem GetKey_SetKey (t : TUiAnimSplineTrack) (index : Int) (key key0 : I2DBezierKey)
    (h0 : 0 ≤ index) (h1 : index < t.GetNumKeys) :
    GetKey (SetKey t index key) index key0 = key ∧
    (SetKey t index key).GetNumKeys = t.GetNumKeys ∧
    (∀ j : Nat, j ≠ index.toNat → (SetKey t index key).m_spline[j]? = t.m_spline[j]?) ∧
    (∃ k k1, t.m_spline[index.toNat]? = some k ∧
      (SetKey t index key).m_spline[index.toNat]? = some k1 ∧
      k1.ds = k.ds ∧ k1.dd = k.dd) ∧
    (SetKey t index key).m_defaultValue = t.m_defaultValue := by
  obtain ⟨n, rfl⟩ := Int.eq_ofNat_of_zero_le h0
  have hn : n < t.m_spline.length := by
    simp only [GetNumKeys] at h1
    exact_mod_cast h1
  have hk : t.m_spline[n]? = some t.m_spline[n] := List.getElem?_eq_getElem hn
  have hset := SetKey_natCast_getElem? t n key _ hk
  refine ⟨?_, ?_, ?_, ?_, (SetKey_frame t n key).2.1⟩
  · rw [GetKey_natCast _ n key0 _ hset]
  · simp [GetNumKeys, SetKey_m_spline, modifyKey_length]
  · intro j hj
    rw [SetKey_m_spline]
    exact modifyKey_getElem?_ne _ _ n j (by simpa using hj.symm)
  · refine ⟨t.m_spline[n],
      { t.m_spline[n] with time := key.time, flags := key.flags, value := key.value },
      ?_, ?_, rfl, rfl⟩
    · rw [Int.toNat_ofNat]; exact hk
    · rw [Int.toNat_ofNat]; exact hset

theorem GetKey_SetKey_witness :
    (0 : Int) ≤ 0 ∧ (0 : Int) < track012.GetNumKeys ∧
    GetKey (SetKey track012 0 ⟨5, 9, ⟨5, 1⟩⟩) 0 I2DBezierKey.new = ⟨5, 9, ⟨5, 1⟩⟩ ∧
    (SetKey track012 0 ⟨5, 9, ⟨5, 1⟩⟩).m_spline.map (fun k => k.time) = [5, 1, 2] :=
  ⟨by decide, by decide!,
   (GetKey_SetKey track012 0 ⟨5, 9, ⟨5, 1⟩⟩ I2DBezierKey.new (by decide) (by decide!)).1,
   by decide!⟩

/-- C27 (as stated, refuted): on the track that `CreateKey(0)` and `SetKey` at index 0 with a
key of time 1 and value (2, 3) reach from a fresh track, the saving `Serialize` and the
saving `SerializeSelection` do not return success where `assert` is active: the assertion
`key.time == key.value.x` of the saving loop fails. -/
theorem save_keeps_track_counterexample :
    (SetKey (CreateKey engine (new engine) 0).2 0 ⟨1, 0, ⟨2, 3⟩⟩).m_spline =
      [ { time := 1, flags := 0, value := ⟨2, 3⟩, ds := 0, dd := 0 } ] ∧
    Serialize_call engine (SetKey (CreateKey engine (new engine) 0).2 0 ⟨1, 0, ⟨2, 3⟩⟩)
      XmlNode.empty false true = CallOutcome.assertionFailed ∧
    SerializeSelection_call engine
      (SetKey (CreateKey engine (new engine) 0).2 0 ⟨1, 0, ⟨2, 3⟩⟩)
      XmlNode.empty false false 0 = CallOutcome.assertionFailed := by
  decide!

/-- C27 (amended): the saving `Serialize` and the saving `SerializeSelection` never modify
the track: what they return is success together with the track, with every key, flag
(selection bits included), the default value, the value range and the colour, exactly as it
was.  With `assert` active they return, with that result, on every track whose keys all
satisfy `key.time == key.value.x`; on a track with a key that does not, the assertion of the
saving loop fails. -/
theorem save_keeps_track (E : Externals) (t : TUiAnimSplineTrack) (xmlNode : XmlNode)
    (bLoadEmptyTracks bCopySelected : Bool) (fTimeOffset : float) :
    (Serialize E t xmlNode false bLoadEmptyTracks).1 = true ∧
    (Serialize E t xmlNode false bLoadEmptyTracks).2.1 = t ∧
    (SerializeSelection E t xmlNode false bCopySelected fTimeOffset).1 = true ∧
    (SerializeSelection E t xmlNode false bCopySelected fTimeOffset).2.1 = t ∧
    ((∀ k ∈ t.m_spline, k.time = k.value.x) →
      Serialize_call E t xmlNode false bLoadEmptyTracks =
        CallOutcome.returned (Serialize E t xmlNode false bLoadEmptyTracks) ∧
      SerializeSelection_call E t xmlNode false bCopySelected fTimeOffset =
        CallOutcome.returned
          (SerializeSelection E t xmlNode false bCopySelected fTimeOffset)) ∧
    (¬ (∀ k ∈ t.m_spline, k.time = k.value.x) →
      Serialize_call E t xmlNode false bLoadEmptyTracks = CallOutcome.assertionFailed ∧
      SerializeSelection_call E t xmlNode false bCopySelected fTimeOffset =
        CallOutcome.assertionFailed) := by
  refine ⟨by simp [Serialize], by simp [Serialize], by simp [SerializeSelection],
    by simp [SerializeSelection], fun h => ⟨?_, ?_⟩, fun h => ⟨?_, ?_⟩⟩
  · exact (Serialize_call_save E t xmlNode bLoadEmptyTracks).1 h
  · exact (SerializeSelection_call_save E t xmlNode bCopySelected fTimeOffset).1 h
  · exact (Serialize_call_save E t xmlNode bLoadEmptyTracks).2 h
  · exact (SerializeSelection_call_save E t xmlNode bCopySelected fTimeOffset).2 h

theorem save_keeps_track_witness :
    (∀ k ∈ track012.m_spline, k.time = k.value.x) ∧
    Serialize_call engine track012 XmlNode.empty false true =
      CallOutcome.returned (Serialize engine track012 XmlNode.empty false true) ∧
    SerializeSelection_call engine track012 XmlNode.empty false true 0 =
      CallOutcome.returned (SerializeSelection engine track012 XmlNode.empty false true 0) ∧
    (Serialize engine track012 XmlNode.empty false true).1 = true ∧
    (Serialize engine track012 XmlNode.empty false true).2.1 = track012 ∧
    (SerializeSelection engine track012 XmlNode.empty false true 0).1 = true ∧
    (SerializeSelection engine track012 XmlNode.empty false true 0).2.1 = track012 :=
  ⟨by decide!,
   ((save_keeps_track engine track012 XmlNode.empty true true 0).2.2.2.2.1 (by decide!)).1,
   ((save_keeps_track engine track012 XmlNode.empty true true 0).2.2.2.2.1 (by decide!)).2,
   (save_keeps_track engine track012 XmlNode.empty true true 0).1,
   (save_keeps_track engine track012 XmlNode.empty true true 0).2.1,
   (save_keeps_track engine track012 XmlNode.empty true true 0).2.2.1,
   (save_keeps_track engine track012 XmlNode.empty true true 0).2.2.2.1⟩

/-! ## Track attributes on load -/

theorem Serialize_loadKeys_frame (rest : List KeyNode) :
    ∀ (t : TUiAnimSplineTrack) (i : Nat),
      (Serialize_loadKeys t i rest).2.m_flags = t.m_flags ∧
      (Serialize_loadKeys t i rest).2.m_defaultValue = t.m_defaultValue ∧
      (Serialize_loadKeys t i rest).2.m_bCustomColorSet = t.m_bCustomColorSet ∧
      (Serialize_loadKeys t i rest).2.m_customColor = t.m_customColor := by
  induction rest with
  | nil => intro t i; exact ⟨rfl, rfl, rfl, rfl⟩
  | cons e rest ih =>
    intro t i
    have h1 := SetKey_frame t i ⟨(getAttr e.time I2DBezierKey.new.time).2,
      (getAttr e.flags I2DBezierKey.new.flags).2, (getAttr e.value I2DBezierKey.new.value).2⟩
    have hstep : ∀ T : TUiAnimSplineTrack,
        T.m_flags = (SetKey t i ⟨(getAttr e.time I2DBezierKey.new.time).2,
          (getAttr e.flags I2DBezierKey.new.flags).2,
          (getAttr e.value I2DBezierKey.new.value).2⟩).m_flags →
        T.m_defaultValue = (SetKey t i ⟨(getAttr e.time I2DBezierKey.new.time).2,
          (getAttr e.flags I2DBezierKey.new.flags).2,
          (getAttr e.value I2DBezierKey.new.value).2⟩).m_defaultValue →
        T.m_bCustomColorSet = (SetKey t i ⟨(getAttr e.time I2DBezierKey.new.time).2,
          (getAttr e.flags I2DBezierKey.new.flags).2,
          (getAttr e.value I2DBezierKey.new.value).2⟩).m_bCustomColorSet →
        T.m_customColor = (SetKey t i ⟨(getAttr e.time I2DBezierKey.new.time).2,
          (getAttr e.flags I2DBezierKey.new.flags).2,
          (getAttr e.value I2DBezierKey.new.value).2⟩).m_customColor →
        (Serialize_loadKeys T (i + 1) rest).2.m_flags = t.m_flags ∧
        (Serialize_loadKeys T (i + 1) rest).2.m_defaultValue = t.m_defaultValue ∧
        (Serialize_loadKeys T (i + 1) rest).2.m_bCustomColorSet = t.m_bCustomColorSet ∧
        (Serialize_loadKeys T (i + 1) rest).2.m_customColor = t.m_customColor := by
      intro T a b c d
      obtain ⟨a1, b1, c1, d1⟩ := ih T (i + 1)
      exact ⟨a1.trans (a.trans h1.1), b1.trans (b.trans h1.2.1), c1.trans (c.trans h1.2.2.1),
        d1.trans (d.trans h1.2.2.2)⟩
    simp only [Serialize_loadKeys]
    split_ifs
    · exact ⟨rfl, rfl, rfl, rfl⟩
    · exact ⟨rfl, rfl, rfl, rfl⟩
    · exact h1
    · exact h1
    · exact hstep _ rfl rfl rfl rfl

theorem Serialize_load_header (E : Externals) (t : TUiAnimSplineTrack) (xmlNode : XmlNode)
    (bLoadEmptyTracks : Bool) :
    (Serialize E t xmlNode true bLoadEmptyTracks).2.1.m_flags =
      xmlNode.Flags.getD t.m_flags ∧
    (Serialize E t xmlNode true bLoadEmptyTracks).2.1.m_defaultValue =
      xmlNode.defaultValue.getD t.m_defaultValue ∧
    (Serialize E t xmlNode true bLoadEmptyTracks).2.1.m_bCustomColorSet =
      xmlNode.HasCustomColor.getD t.m_bCustomColorSet ∧
    (Serialize E t xmlNode true bLoadEmptyTracks).2.1.m_customColor =
      (if xmlNode.HasCustomColor.getD t.m_bCustomColorSet = true then
        ColorB.ofAbgr (xmlNode.CustomColor.getD E.indeterminateAbgr)
       else t.m_customColor) := by
  have hg : ∀ {α : Type} (a : Option α) (d : α), (getAttr a d).2 = a.getD d := by
    intro α a d
    cases a <;> rfl
  have hkey : ∀ T : TUiAnimSplineTrack,
      (Serialize E t xmlNode true bLoadEmptyTracks).2.1 =
        (Serialize_loadKeys (SetNumKeys T xmlNode.children.length) 0 xmlNode.children).2 →
      (Serialize E t xmlNode true bLoadEmptyTracks).2.1.m_flags = T.m_flags ∧
      (Serialize E t xmlNode true bLoadEmptyTracks).2.1.m_defaultValue = T.m_defaultValue ∧
      (Serialize E t xmlNode true bLoadEmptyTracks).2.1.m_bCustomColorSet =
        T.m_bCustomColorSet ∧
      (Serialize E t xmlNode true bLoadEmptyTracks).2.1.m_customColor = T.m_customColor := by
    intro T hT
    rw [hT]
    exact Serialize_loadKeys_frame _ (SetNumKeys T xmlNode.children.length) 0
  by_cases hc : xmlNode.HasCustomColor.getD t.m_bCustomColorSet = true
  · have := hkey
      { m_spline := t.m_spline, m_flags := xmlNode.Flags.getD t.m_flags,
        m_defaultValue := xmlNode.defaultValue.getD t.m_defaultValue,
        m_fMinKeyValue := t.m_fMinKeyValue, m_fMaxKeyValue := t.m_fMaxKeyValue,
        m_bCustomColorSet := xmlNode.HasCustomColor.getD t.m_bCustomColorSet,
        m_customColor := ColorB.ofAbgr (xmlNode.CustomColor.getD E.indeterminateAbgr) }
      (by
        simp only [Serialize, if_true, SetFlags, hg, hc]
        split_ifs <;> rfl)
    simpa [hc] using this
  · have := hkey
      { m_spline := t.m_spline, m_flags := xmlNode.Flags.getD t.m_flags,
        m_defaultValue := xmlNode.defaultValue.getD t.m_defaultValue,
        m_fMinKeyValue := t.m_fMinKeyValue, m_fMaxKeyValue := t.m_fMaxKeyValue,
        m_bCustomColorSet := xmlNode.HasCustomColor.getD t.m_bCustomColorSet,
        m_customColor := t.m_customColor }
      (by
        simp only [Serialize, if_true, SetFlags, hg, hc]
        split_ifs <;> first | rfl | contradiction)
    simpa [hc] using this

/-- C22: the loading `Serialize` sets the has-custom-colour flag from the `HasCustomColor`
attribute (keeping it when the attribute is absent); when the flag is then false the stored
colour is left as it was, and when it is true the colour becomes the decoding of the packed
ABGR value of the `CustomColor` attribute.  The saving `Serialize` writes the `CustomColor`
attribute, with the packed colour, exactly when the flag is set. -/
theorem Serialize_custom_colour (E : Externals) (t : TUiAnimSplineTrack) (xmlNode : XmlNode)
    (bLoadEmptyTracks : Bool) :
    (Serialize E t xmlNode true bLoadEmptyTracks).2.1.m_bCustomColorSet =
      xmlNode.HasCustomColor.getD t.m_bCustomColorSet ∧
    ((Serialize E t xmlNode true bLoadEmptyTracks).2.1.m_bCustomColorSet = false →
      (Serialize E t xmlNode true bLoadEmptyTracks).2.1.m_customColor = t.m_customColor) ∧
    ((Serialize E t xmlNode true bLoadEmptyTracks).2.1.m_bCustomColorSet = true →
      ∀ abgr : Nat, xmlNode.CustomColor = some abgr →
        (Serialize E t xmlNode true bLoadEmptyTracks).2.1.m_customColor =
          ColorB.ofAbgr abgr) ∧
    (Serialize E t xmlNode false bLoadEmptyTracks).2.2.HasCustomColor =
      some t.m_bCustomColorSet ∧
    (Serialize E t xmlNode false bLoadEmptyTracks).2.2.CustomColor =
      (if t.m_bCustomColorSet = true then some t.m_customColor.pack_abgr8888
       else xmlNode.CustomColor) := by
  obtain ⟨_, _, h3, h4⟩ := Serialize_load_header E t xmlNode bLoadEmptyTracks
  refine ⟨h3, ?_, ?_, ?_, ?_⟩
  · intro hf
    rw [h3] at hf
    rw [h4, hf]
    simp
  · intro hf abgr ha
    rw [h3] at hf
    rw [h4, hf, ha]
    simp
  · have h := fun key node => Serialize_save_foldl E t t.m_spline [] key node (by simp)
    simp only [List.length_nil] at h
    simp only [Serialize, Bool.false_eq_true, if_false, GetNumKeys, Int.toNat_ofNat,
      List.range_eq_range', h]
    split_ifs <;> rfl
  · have h := fun key node => Serialize_save_foldl E t t.m_spline [] key node (by simp)
    simp only [List.length_nil] at h
    simp only [Serialize, Bool.false_eq_true, if_false, GetNumKeys, Int.toNat_ofNat,
      List.range_eq_range', h]
    split_ifs <;> rfl

theorem Serialize_custom_colour_witness :
    (Serialize engine track012 nodeEmptyColoured true true).2.1.m_bCustomColorSet = true ∧
    nodeEmptyColoured.CustomColor = some 4278190335 ∧
    (Serialize engine track012 nodeEmptyColoured true true).2.1.m_customColor =
      ColorB.ofAbgr 4278190335 ∧
    ColorB.ofAbgr 4278190335 = ⟨255, 0, 0, 255⟩ ∧
    (Serialize engine track012 XmlNode.empty true true).2.1.m_bCustomColorSet = false ∧
    (Serialize engine track012 XmlNode.empty true true).2.1.m_customColor =
      track012.m_customColor :=
  ⟨by decide!, rfl,
   (Serialize_custom_colour engine track012 nodeEmptyColoured true).2.2.1 (by decide!) _ rfl,
   by decide,
   by decide!,
   (Serialize_custom_colour engine track012 XmlNode.empty true).2.1 (by decide!)⟩

/-- C28: when the document has no key element and empty tracks are not allowed, the loading
`Serialize` returns failure, and yet the track has no key left and its track flags, default
value and custom-colour state are those read from the document (an attribute that the
document lacks leaves the member as it was). -/
theorem Serialize_load_empty_failure_mutates (E : Externals) (t : TUiAnimSplineTrack)
    (xmlNode : XmlNode) (h : xmlNode.children = []) :
    (Serialize E t xmlNode true false).1 = false ∧
    (Serialize E t xmlNode true false).2.1.GetNumKeys = 0 ∧
    (Serialize E t xmlNode true false).2.1.m_flags = xmlNode.Flags.getD t.m_flags ∧
    (Serialize E t xmlNode true false).2.1.m_defaultValue =
      xmlNode.defaultValue.getD t.m_defaultValue ∧
    (Serialize E t xmlNode true false).2.1.m_bCustomColorSet =
      xmlNode.HasCustomColor.getD t.m_bCustomColorSet ∧
    (Serialize E t xmlNode true false).2.1.m_customColor =
      (if xmlNode.HasCustomColor.getD t.m_bCustomColorSet = true then
        ColorB.ofAbgr (xmlNode.CustomColor.getD E.indeterminateAbgr)
       else t.m_customColor) := by
  obtain ⟨h1, h2, h3, h4⟩ := Serialize_load_header E t xmlNode false
  refine ⟨?_, ?_, h1, h2, h3, h4⟩
  · rw [Serialize_load_fst, h]
    rfl
  · have hk := Serialize_load_m_spline E t xmlNode false (by simp [h])
    simp [GetNumKeys, hk, h]

theorem Serialize_load_empty_failure_mutates_witness :
    nodeEmptyColoured.children = [] ∧
    (Serialize engine track012 nodeEmptyColoured true false).1 = false ∧
    (Serialize engine track012 nodeEmptyColoured true false).2.1.GetNumKeys = 0 ∧
    (Serialize engine track012 nodeEmptyColoured true false).2.1 =
      { track012 with
        m_spline := [], m_flags := 3, m_defaultValue := ⟨0, 8⟩, m_bCustomColorSet := true,
        m_customColor := ⟨255, 0, 0, 255⟩ } :=
  ⟨rfl,
   (Serialize_load_empty_failure_mutates engine track012 nodeEmptyColoured rfl).1,
   (Serialize_load_empty_failure_mutates engine track012 nodeEmptyColoured rfl).2.1,
   by decide!⟩

/-! ## Order of the loaded keys -/

theorem toKey_time_of_complete (e : KeyNode) (h : e.complete = true) :
    e.time = some e.toKey.time := by
  obtain ⟨tm, v, fl, ds, dd⟩ := e
  cases tm <;> simp [KeyNode.complete, KeyNode.toKey] at h ⊢

/-- C23 (as stated, refuted): a document whose two complete key elements have the times 2
and 1 loads successfully, and the loaded keys are at the times 2 and 1, in that order. -/
theorem Serialize_load_unsorted_counterexample :
    (Serialize engine (new engine) nodeUnsorted true false).1 = true ∧
    (Serialize engine (new engine) nodeUnsorted true false).2.1.m_spline.map
      (fun k => k.time) = [2, 1] ∧
    ¬ List.Pairwise (fun a b : SplineKey => a.time ≤ b.time)
      (Serialize engine (new engine) nodeUnsorted true false).2.1.m_spline := by
  decide!

/-- C23 (amended): after a successful loading `Serialize` the keys are in document order, key
`i` at the time of element `i`; the key sequence is sorted by non-decreasing time exactly when
the key elements of the document are in non-decreasing order of their times. -/
theorem Serialize_load_document_order (E : Externals) (t : TUiAnimSplineTrack)
    (xmlNode : XmlNode) (bLoadEmptyTracks : Bool)
    (h : (Serialize E t xmlNode true bLoadEmptyTracks).1 = true) :
    (Serialize E t xmlNode true bLoadEmptyTracks).2.1.m_spline.map (fun k => some k.time) =
      xmlNode.children.map (fun e => e.time) ∧
    (List.Pairwise (fun a b : SplineKey => a.time ≤ b.time)
        (Serialize E t xmlNode true bLoadEmptyTracks).2.1.m_spline ↔
      List.Pairwise
        (fun e1 e2 : KeyNode => ∀ t1 t2 : float, e1.time = some t1 → e2.time = some t2 → t1 ≤ t2)
        xmlNode.children) := by
  rw [Serialize_load_fst, Bool.and_eq_true] at h
  have hall : ∀ e ∈ xmlNode.children, e.complete = true := List.all_eq_true.mp h.1
  rw [Serialize_load_m_spline E t xmlNode bLoadEmptyTracks hall]
  constructor
  · rw [List.map_map]
    apply List.map_congr_left
    intro e he
    exact (toKey_time_of_complete e (hall e he)).symm
  · rw [List.pairwise_map]
    constructor
    · intro hp
      refine hp.imp_of_mem ?_
      intro a b ha hb hab t1 t2 h1 h2
      rw [toKey_time_of_complete a (hall a ha)] at h1
      rw [toKey_time_of_complete b (hall b hb)] at h2
      cases h1
      cases h2
      exact hab
    · intro hp
      refine hp.imp_of_mem ?_
      intro a b ha hb hab
      exact hab _ _ (toKey_time_of_complete a (hall a ha))
        (toKey_time_of_complete b (hall b hb))

theorem Serialize_load_document_order_witness :
    (Serialize engine track012 nodeUnsorted true false).1 = true ∧
    (Serialize engine track012 nodeUnsorted true false).2.1.m_spline.map
      (fun k => some k.time) = nodeUnsorted.children.map (fun e => e.time) ∧
    nodeUnsorted.children.map (fun e => e.time) = [some 2, some 1] :=
  ⟨by decide!,
   (Serialize_load_document_order engine track012 nodeUnsorted false (by decide!)).1,
   by decide!⟩

/-! ## Loads that fail part-way -/

theorem Serialize_loadKeys_length (rest : List KeyNode) :
    ∀ (t : TUiAnimSplineTrack) (i : Nat),
      (Serialize_loadKeys t i rest).2.m_spline.length = t.m_spline.length := by
  induction rest with
  | nil => intro t i; rfl
  | cons e rest ih =>
    intro t i
    simp only [Serialize_loadKeys]
    split_ifs <;> simp [ih, SetKey_m_spline, modifyKey_length]

theorem Serialize_loadKeys_append (pre2 rest : List KeyNode) :
    ∀ (t : TUiAnimSplineTrack) (i : Nat), (∀ e ∈ pre2, e.complete = true) →
      Serialize_loadKeys t i (pre2 ++ rest) =
        Serialize_loadKeys (Serialize_loadKeys t i pre2).2 (i + pre2.length) rest := by
  induction pre2 with
  | nil => intro t i _; rfl
  | cons e pre2 ih =>
    intro t i hall
    have he : e.complete = true := hall e (List.mem_cons_self _ _)
    have hrest : ∀ e1 ∈ pre2, e1.complete = true :=
      fun e1 h1 => hall e1 (List.mem_cons_of_mem _ h1)
    obtain ⟨tm, v, fl, ds, dd⟩ := e
    cases tm <;> cases v <;> cases ds <;> cases dd <;>
      simp [KeyNode.complete] at he
    rw [List.cons_append]
    simp only [Serialize_loadKeys, getAttr_some, Bool.not_true,
      Bool.false_eq_true, if_false, List.length_cons]
    rw [ih _ (i + 1) hrest]
    have : i + 1 + pre2.length = i + (pre2.length + 1) := by omega
    rw [this]

theorem Serialize_loadKeys_prefix (rest : List KeyNode) :
    ∀ (t : TUiAnimSplineTrack) (pre suf : List SplineKey),
      t.m_spline = pre ++ suf → rest.length ≤ suf.length →
      (∀ e ∈ rest, e.complete = true) →
      (Serialize_loadKeys t pre.length rest).2.m_spline =
        pre ++ rest.map KeyNode.toKey ++ suf.drop rest.length := by
  induction rest with
  | nil => intro t pre suf ht _ _; simp [Serialize_loadKeys, ht]
  | cons e rest ih =>
    intro t pre suf ht hlen hall
    obtain ⟨k, suf1, rfl⟩ : ∃ k suf1, suf = k :: suf1 := by
      cases suf with
      | nil => simp at hlen
      | cons k suf1 => exact ⟨k, suf1, rfl⟩
    have he : e.complete = true := hall e (List.mem_cons_self _ _)
    have hrest : ∀ e1 ∈ rest, e1.complete = true :=
      fun e1 h1 => hall e1 (List.mem_cons_of_mem _ h1)
    obtain ⟨tm, v, fl, ds, dd⟩ := e
    cases tm <;> cases v <;> cases ds <;> cases dd <;>
      simp [KeyNode.complete] at he
    rename_i tm v ds dd
    have hlen1 : rest.length ≤ suf1.length := by simpa using hlen
    have hT : ∀ T : TUiAnimSplineTrack,
        T.m_spline = pre ++ KeyNode.toKey ⟨some tm, some v, fl, some ds, some dd⟩ :: suf1 →
        (Serialize_loadKeys T (pre.length + 1) rest).2.m_spline =
          pre ++ KeyNode.toKey ⟨some tm, some v, fl, some ds, some dd⟩ ::
            (rest.map KeyNode.toKey ++ suf1.drop rest.length) := by
      intro T hTs
      have := ih T (pre ++ [KeyNode.toKey ⟨some tm, some v, fl, some ds, some dd⟩]) suf1
        (by simp [hTs]) hlen1 hrest
      simpa using this
    simp only [Serialize_loadKeys, getAttr_some, Bool.not_true, Bool.false_eq_true, if_false,
      List.map_cons, List.length_cons, List.drop_succ_cons, List.append_assoc,
      List.cons_append]
    apply hT
    simp only [SetKey_m_spline, ht, modifyKey_append, getD_append_length]
    cases fl <;> simp [KeyNode.toKey, I2DBezierKey.new]

theorem Serialize_loadKeys_incomplete (t : TUiAnimSplineTrack) (i : Nat) (e : KeyNode)
    (rest : List KeyNode) (k : SplineKey) (he : e.complete = false)
    (hk : t.m_spline[i]? = some k) :
    (Serialize_loadKeys t i (e :: rest)).1 = false ∧
    (∀ j : Nat, j ≠ i → (Serialize_loadKeys t i (e :: rest)).2.m_spline[j]? = t.m_spline[j]?) ∧
    (∀ (tm : float) (v : Vec2), e.time = some tm → e.value = some v →
      ∃ k1, (Serialize_loadKeys t i (e :: rest)).2.m_spline[i]? = some k1 ∧
        k1.time = tm ∧ k1.value = v ∧ k1.flags = e.flags.getD 0) := by
  have hne : ∀ (f : SplineKey → SplineKey) (l : List SplineKey) (j : Nat), j ≠ i →
      (modifyKey f l i)[j]? = l[j]? :=
    fun f l j hj => modifyKey_getElem?_ne f l i j (fun h => hj h.symm)
  have hset := fun key => SetKey_natCast_getElem? t i key k hk
  obtain ⟨tm, v, fl, ds, dd⟩ := e
  cases tm with
  | none => simp [Serialize_loadKeys]
  | some tm =>
    cases v with
    | none => simp [Serialize_loadKeys]
    | some v =>
      have hfl : (getAttr fl I2DBezierKey.new.flags).2 = fl.getD 0 := by
        cases fl <;> rfl
      cases ds with
      | none =>
        simp only [Serialize_loadKeys, getAttr_some, getAttr_none, Bool.not_true,
          Bool.not_false, Bool.false_eq_true, if_false, if_true, hfl]
        refine ⟨trivial, fun j hj => ?_, fun tm1 v1 h1 h2 => ?_⟩
        · rw [hne _ _ j hj, SetKey_m_spline, hne _ _ j hj]
        · simp only [Option.some.injEq] at h1 h2
          subst h1 h2
          rw [modifyKey_getElem?, hset]
          exact ⟨_, rfl, rfl, rfl, rfl⟩
      | some ds =>
        cases dd with
        | some dd => simp [KeyNode.complete] at he
        | none =>
          simp only [Serialize_loadKeys, getAttr_some, getAttr_none, Bool.not_true,
            Bool.not_false, Bool.false_eq_true, if_false, if_true, hfl]
          refine ⟨trivial, fun j hj => ?_, fun tm1 v1 h1 h2 => ?_⟩
          · rw [hne _ _ j hj, hne _ _ j hj, SetKey_m_spline, hne _ _ j hj]
          · simp only [Option.some.injEq] at h1 h2
            subst h1 h2
            rw [modifyKey_getElem?, modifyKey_getElem?, hset]
            exact ⟨_, rfl, rfl, rfl, rfl⟩

theorem Serialize_load_missing_attribute_lemma (E : Externals) (t : TUiAnimSplineTrack)
    (xmlNode : XmlNode) (bLoadEmptyTracks : Bool) (e : KeyNode) (he : e ∈ xmlNode.children)
    (hmiss : e.time = none ∨ e.value = none ∨ e.ds = none ∨ e.dd = none) :
    (Serialize E t xmlNode true bLoadEmptyTracks).1 = false := by
  have hnot : xmlNode.children.all KeyNode.complete = false := by
    rw [Bool.eq_false_iff]
    intro hall
    have hc := (complete_iff e).mp (List.all_eq_true.mp hall e he)
    rcases hmiss with h1 | h1 | h1 | h1
    · exact hc.1 h1
    · exact hc.2.1 h1
    · exact hc.2.2.1 h1
    · exact hc.2.2.2 h1
  rw [Serialize_load_fst, hnot]
  rfl

theorem toKey_fields_of_complete (e : KeyNode) (h : e.complete = true) :
    e.time = some e.toKey.time ∧ e.value = some e.toKey.value ∧
    e.ds = some e.toKey.ds ∧ e.dd = some e.toKey.dd ∧ e.toKey.flags = e.flags.getD 0 := by
  obtain ⟨tm, v, fl, ds, dd⟩ := e
  cases tm <;> cases v <;> cases ds <;> cases dd <;>
    simp [KeyNode.complete, KeyNode.toKey] at h ⊢

/-- C25: when key element `i` is the first malformed one, the loading `Serialize` returns
failure and the load is not undone: the key count is the number of key elements of the
document, every key with an index below `i` holds the time, value, flags, `ds` and `dd` of
its element, and when element `i` has both `time` and `value` (so `ds` or `dd` is what is
missing) key `i` holds the time, value and flags of element `i`. -/
theorem Serialize_load_failure_not_atomic (E : Externals) (t : TUiAnimSplineTrack)
    (xmlNode : XmlNode) (bLoadEmptyTracks : Bool)
    (pre : List KeyNode) (e : KeyNode) (suf : List KeyNode)
    (hdoc : xmlNode.children = pre ++ e :: suf)
    (hpre : ∀ e1 ∈ pre, e1.time ≠ none ∧ e1.value ≠ none ∧ e1.ds ≠ none ∧ e1.dd ≠ none)
    (he : e.time = none ∨ e.value = none ∨ e.ds = none ∨ e.dd = none) :
    (Serialize E t xmlNode true bLoadEmptyTracks).1 = false ∧
    (Serialize E t xmlNode true bLoadEmptyTracks).2.1.GetNumKeys = xmlNode.children.length ∧
    (∀ (j : Nat) (e1 : KeyNode), pre[j]? = some e1 →
      ∃ k, (Serialize E t xmlNode true bLoadEmptyTracks).2.1.m_spline[j]? = some k ∧
        e1.time = some k.time ∧ e1.value = some k.value ∧
        e1.ds = some k.ds ∧ e1.dd = some k.dd ∧ k.flags = e1.flags.getD 0) ∧
    (∀ (tm : float) (v : Vec2), e.time = some tm → e.value = some v →
      ∃ k, (Serialize E t xmlNode true bLoadEmptyTracks).2.1.m_spline[pre.length]? = some k ∧
        k.time = tm ∧ k.value = v ∧ k.flags = e.flags.getD 0) := by
  have hfail : (Serialize E t xmlNode true bLoadEmptyTracks).1 = false :=
    Serialize_load_missing_attribute_lemma E t xmlNode bLoadEmptyTracks e
      (by rw [hdoc]; simp) he
  have hall : ∀ e1 ∈ pre, e1.complete = true := fun e1 h1 => (complete_iff e1).mpr (hpre e1 h1)
  have hinc : e.complete = false := by
    rw [Bool.eq_false_iff]
    intro hc
    have := (complete_iff e).mp hc
    rcases he with h | h | h | h
    · exact this.1 h
    · exact this.2.1 h
    · exact this.2.2.1 h
    · exact this.2.2.2 h
  obtain ⟨t4, hr, _, _, _⟩ := Serialize_load_snd E t xmlNode bLoadEmptyTracks
  have hlen0 := SetNumKeys_length t4 xmlNode.children.length
  have hT1 := Serialize_loadKeys_prefix pre (SetNumKeys t4 xmlNode.children.length) []
    (SetNumKeys t4 xmlNode.children.length).m_spline (by simp)
    (by rw [hlen0, hdoc]; simp) hall
  simp only [List.length_nil, List.nil_append] at hT1
  have hlen1 := Serialize_loadKeys_length pre (SetNumKeys t4 xmlNode.children.length) 0
  have hi : pre.length <
      (Serialize_loadKeys (SetNumKeys t4 xmlNode.children.length) 0 pre).2.m_spline.length := by
    rw [hlen1, hlen0, hdoc]
    simp
  obtain ⟨hf, hne, hat⟩ := Serialize_loadKeys_incomplete
    (Serialize_loadKeys (SetNumKeys t4 xmlNode.children.length) 0 pre).2 pre.length e suf _
    hinc (List.getElem?_eq_getElem hi)
  have hres : (Serialize E t xmlNode true bLoadEmptyTracks).2.1 =
      (Serialize_loadKeys (Serialize_loadKeys (SetNumKeys t4 xmlNode.children.length) 0 pre).2
        pre.length (e :: suf)).2 := by
    have happ := Serialize_loadKeys_append pre (e :: suf)
      (SetNumKeys t4 xmlNode.children.length) 0 hall
    rw [← hdoc, Nat.zero_add] at happ
    rw [hr, happ]
  refine ⟨hfail, ?_, ?_, ?_⟩
  · rw [hres]
    simp only [GetNumKeys, Serialize_loadKeys_length, hlen0]
  · intro j e1 hj
    have hjlt : j < pre.length := by
      rcases Nat.lt_or_ge j pre.length with h1 | h1
      · exact h1
      · rw [List.getElem?_eq_none h1] at hj; cases hj
    have hc := toKey_fields_of_complete e1 (hall e1 (List.getElem?_mem hj))
    refine ⟨e1.toKey, ?_, hc⟩
    rw [hres, hne j (Nat.ne_of_lt hjlt), hT1,
      List.getElem?_append_left (by simpa using hjlt), List.getElem?_map, hj]
    rfl
  · intro tm v h1 h2
    rw [hres]
    exact hat tm v h1 h2

theorem Serialize_load_failure_not_atomic_witness :
    nodeMissingDd.children =
      [ { time := some 5, value := some ⟨5, 1⟩, flags := some 9, ds := some 2, dd := some 3 } ]
        ++ { time := some 6, value := some ⟨6, 2⟩, flags := some 1, ds := some 4, dd := none }
        :: [ { time := some 7, value := some ⟨7, 3⟩, flags := none, ds := some 0,
               dd := some 0 } ] ∧
    (Serialize engine track012 nodeMissingDd true true).1 = false ∧
    (Serialize engine track012 nodeMissingDd true true).2.1.GetNumKeys =
      nodeMissingDd.children.length ∧
    (Serialize engine track012 nodeMissingDd true true).2.1.m_spline =
      [ { time := 5, flags := 9, value := ⟨5, 1⟩, ds := 2, dd := 3 },
        { time := 6, flags := 1, value := ⟨6, 2⟩, ds := 4, dd := 1 / 4 },
        { time := 2, flags := 0, value := ⟨2, 5⟩, ds := 0, dd := 0 } ] :=
  ⟨rfl,
   (Serialize_load_failure_not_atomic engine track012 nodeMissingDd true
     [ { time := some 5, value := some ⟨5, 1⟩, flags := some 9, ds := some 2, dd := some 3 } ]
     { time := some 6, value := some ⟨6, 2⟩, flags := some 1, ds := some 4, dd := none }
     [ { time := some 7, value := some ⟨7, 3⟩, flags := none, ds := some 0, dd := some 0 } ]
     rfl (by decide) (by decide)).1,
   (Serialize_load_failure_not_atomic engine track012 nodeMissingDd true
     [ { time := some 5, value := some ⟨5, 1⟩, flags := some 9, ds := some 2, dd := some 3 } ]
     { time := some 6, value := some ⟨6, 2⟩, flags := some 1, ds := some 4, dd := none }
     [ { time := some 7, value := some ⟨7, 3⟩, flags := none, ds := some 0, dd := some 0 } ]
     rfl (by decide) (by decide)).2.1,
   by decide!⟩

/-! ## Selection round trip -/

/-- C29 (as stated, refuted): a selection document of the matching type whose only key
element lacks `time` and carries the value (5, 1) makes the loading `SerializeSelection` fail
the assertion `key.time == key.value.x` of its loop, and so does one whose only element
carries the time 1 and the value (2, 3). -/
theorem SerializeSelection_load_lenient_counterexample :
    selectionNodeNoTime.TrackType = some (GetCurveType engine) ∧
    selectionNodeNoTime.children.map (fun e => (e.time, e.value)) = [(none, some ⟨5, 1⟩)] ∧
    SerializeSelection_call engine track012 selectionNodeNoTime true false 0 =
      CallOutcome.assertionFailed ∧
    selectionNodeSkewed.TrackType = some (GetCurveType engine) ∧
    selectionNodeSkewed.children.map (fun e => (e.time, e.value)) =
      [(some 1, some ⟨2, 3⟩)] ∧
    SerializeSelection_call engine track012 selectionNodeSkewed true false 0 =
      CallOutcome.assertionFailed := by
  decide!

/-- C29 (amended): for a selection document that carries a `TrackType` attribute the flag
that the loading `SerializeSelection` returns is success exactly when the attribute equals
the curve type of the track.  With another type the call returns (failure).  With the curve
type of the track and `assert` active, the call returns exactly when every key element
passes `assert(key.time == key.value.x)`, which an element that carries the time `t` and the
value `(x, y)` does exactly when `x = t`; otherwise the assertion fails.  Whether such an
element carries `flags`, `ds` or `dd` has no bearing on that: it is appended with time
`fadd t d` and value `(fadd x d, y)` (for sums in the finite range), with each of `flags`,
`ds` and `dd` that is present, and with the member of a default-constructed key for each
that is absent. -/
theorem SerializeSelection_load_lenient (E : Externals) (t : TUiAnimSplineTrack)
    (xmlNode : XmlNode) (bCopySelected : Bool) (fTimeOffset : float) (type : Int)
    (h : xmlNode.TrackType = some type) :
    ((SerializeSelection E t xmlNode true bCopySelected fTimeOffset).1 = true ↔
      type = GetCurveType E) ∧
    (type ≠ GetCurveType E →
      SerializeSelection_call E t xmlNode true bCopySelected fTimeOffset =
        CallOutcome.returned (SerializeSelection E t xmlNode true bCopySelected fTimeOffset)) ∧
    (type = GetCurveType E →
      ((∀ e ∈ xmlNode.children, SerializeSelection_loadKey_assert e = true) →
        SerializeSelection_call E t xmlNode true bCopySelected fTimeOffset =
          CallOutcome.returned
            (SerializeSelection E t xmlNode true bCopySelected fTimeOffset)) ∧
      (¬ (∀ e ∈ xmlNode.children, SerializeSelection_loadKey_assert e = true) →
        SerializeSelection_call E t xmlNode true bCopySelected fTimeOffset =
          CallOutcome.assertionFailed) ∧
      (∀ (e : KeyNode) (tm : float) (v : Vec2), e.time = some tm → e.value = some v →
        (SerializeSelection_loadKey_assert e = true ↔ v.x = tm)) ∧
      (SerializeSelection E t xmlNode true bCopySelected fTimeOffset).2.1.GetNumKeys =
        t.GetNumKeys + xmlNode.children.length ∧
      ∃ pasted : List SplineKey,
        pasted.length = xmlNode.children.length ∧
        List.Perm (SerializeSelection E t xmlNode true bCopySelected fTimeOffset).2.1.m_spline
          (t.m_spline ++ pasted) ∧
        ∀ (j : Nat) (e : KeyNode) (tm : float) (v : Vec2),
          xmlNode.children[j]? = some e → e.time = some tm → e.value = some v →
          finiteBinary32 (tm + fTimeOffset) → finiteBinary32 (v.x + fTimeOffset) →
          ∃ k, pasted[j]? = some k ∧
            k.time = fadd tm fTimeOffset ∧
            k.value = ⟨fadd v.x fTimeOffset, v.y⟩ ∧
            k.ds = e.ds.getD SplineKey.zero.ds ∧ k.dd = e.dd.getD SplineKey.zero.dd ∧
            k.flags =
              (if bCopySelected then e.flags.getD I2DBezierKey.new.flags ||| E.selectedMask
               else e.flags.getD I2DBezierKey.new.flags)) := by
  refine ⟨?_, ?_, ?_⟩
  · by_cases hty : type = GetCurveType E
    · subst hty
      simp [(SerializeSelection_load_eq E t xmlNode bCopySelected fTimeOffset h).1]
    · simp [SerializeSelection, h, hty]
  · intro hty
    simp [SerializeSelection_call, h, hty]
  · intro hty
    subst hty
    obtain ⟨_, h2⟩ := SerializeSelection_load_eq E t xmlNode bCopySelected fTimeOffset h
    refine ⟨(SerializeSelection_call_load E t xmlNode bCopySelected fTimeOffset h).1,
      (SerializeSelection_call_load E t xmlNode bCopySelected fTimeOffset h).2,
      fun e tm v ht hv => SerializeSelection_loadKey_assert_iff e tm v ht hv,
      by simp [GetNumKeys, h2, List.length_insertionSort],
      xmlNode.children.map (KeyNode.toPastedKey E bCopySelected fTimeOffset), by simp,
      by rw [h2]; exact List.perm_insertionSort _ _, ?_⟩
    intro j e tm v he ht hv _ _
    obtain ⟨hf1, hf2⟩ := toPastedKey_fields E bCopySelected fTimeOffset e tm v ht hv
    exact ⟨e.toPastedKey E bCopySelected fTimeOffset, by rw [List.getElem?_map, he]; rfl,
      hf1, hf2, rfl, rfl, rfl⟩

theorem SerializeSelection_load_lenient_witness :
    selectionNodeNoTangents.TrackType = some 4 ∧ (4 : Int) = GetCurveType engine ∧
    selectionNodeNoTangents.children.map (fun e => (e.flags, e.ds, e.dd)) =
      [(some 9, some 1, some 2), (none, none, none)] ∧
    (SerializeSelection engine track012 selectionNodeNoTangents true false 5).1 = true ∧
    SerializeSelection_call engine track012 selectionNodeNoTangents true false 5 =
      CallOutcome.returned
        (SerializeSelection engine track012 selectionNodeNoTangents true false 5) ∧
    (SerializeSelection engine track012 selectionNodeNoTangents true false 5).2.1.GetNumKeys =
      track012.GetNumKeys + selectionNodeNoTangents.children.length ∧
    (SerializeSelection engine track012 selectionNodeNoTangents true false 5).2.1.m_spline.map
      (fun k => (k.time, k.flags, k.ds, k.dd)) =
      [(0, 0, 0, 0), (1, 65545, 1 / 2, 1 / 4), (2, 0, 0, 0), (5, 9, 1, 2),
       (11 / 2, 0, 0, 0)] ∧
    selectionNodeOtherType.TrackType = some 1 ∧ (1 : Int) ≠ GetCurveType engine ∧
    ((SerializeSelection engine track012 selectionNodeOtherType true false 5).1 = true ↔
      (1 : Int) = GetCurveType engine) ∧
    SerializeSelection_call engine track012 selectionNodeOtherType true false 5 =
      CallOutcome.returned
        (SerializeSelection engine track012 selectionNodeOtherType true false 5) :=
  ⟨rfl, rfl, by decide!,
   (SerializeSelection_load_lenient engine track012 selectionNodeNoTangents false 5 4
     rfl).1.mpr rfl,
   ((SerializeSelection_load_lenient engine track012 selectionNodeNoTangents false 5 4
     rfl).2.2 rfl).1 (by decide!),
   ((SerializeSelection_load_lenient engine track012 selectionNodeNoTangents false 5 4
     rfl).2.2 rfl).2.2.2.1,
   by decide!, rfl, by decide,
   (SerializeSelection_load_lenient engine track012 selectionNodeOtherType false 5 1 rfl).1,
   (SerializeSelection_load_lenient engine track012 selectionNodeOtherType false 5 1
     rfl).2.1 (by decide)⟩

theorem toPastedKey_SerializeSelection_keyNode (E : Externals) (fTimeOffset : float)
    (k : SplineKey) :
    KeyNode.toPastedKey E false fTimeOffset
        (SerializeSelection_keyNode E ⟨k.time, k.flags, k.value⟩ k) =
      { time := fadd k.time fTimeOffset,
        flags := k.flags &&& (E.SPLINE_KEY_TANGENT_IN_MASK ||| E.SPLINE_KEY_TANGENT_OUT_MASK),
        value := ⟨fadd k.value.x fTimeOffset, k.value.y⟩,
        ds := k.ds,
        dd := k.dd } := by
  unfold SerializeSelection_keyNode
  by_cases h : k.flags &&& (E.SPLINE_KEY_TANGENT_IN_MASK ||| E.SPLINE_KEY_TANGENT_OUT_MASK) = 0
  · simp [KeyNode.toPastedKey, KeyNode.empty, h]
  · simp [KeyNode.toPastedKey, KeyNode.empty, h]

theorem SerializeSelection_keyNode_assert (E : Externals) (k : SplineKey) :
    SerializeSelection_loadKey_assert
        (SerializeSelection_keyNode E ⟨k.time, k.flags, k.value⟩ k) =
      decide (k.time = k.value.x) := by
  unfold SerializeSelection_keyNode
  by_cases h : k.flags &&& (E.SPLINE_KEY_TANGENT_IN_MASK ||| E.SPLINE_KEY_TANGENT_OUT_MASK) = 0
  · simp [SerializeSelection_loadKey_assert, KeyNode.empty, h]
  · simp [SerializeSelection_loadKey_assert, KeyNode.empty, h]

/-- C30 (as stated, refuted): the keys of `track01` are at the times 0 and 1; saving them
with `SerializeSelection` and loading the node with the offset 16777216 into a fresh track
yields two keys at the time 16777216: key 1 is not at the time 1 + 16777216, and the two
times are no longer distinct. -/
theorem SerializeSelection_save_load_roundtrip_counterexample :
    List.Pairwise (fun a b : SplineKey => a.time < b.time) track01.m_spline ∧
    track01.m_spline.map (fun k => k.time) = [0, 1] ∧
    (selectionSaveThenLoad engine track01 (new engine) 16777216).1 = true ∧
    (selectionSaveThenLoad engine track01 (new engine) 16777216).2.1.m_spline.map
      (fun k => k.time) = [16777216, 16777216] ∧
    (16777216 : float) ≠ 1 + 16777216 := by
  decide!

/-- C30 (amended): for a track `t` and an offset `d` such that the shifted times
`fadd key.time d` of the keys of `t` are strictly increasing (the sums being in the finite
range), saving all keys with `SerializeSelection` into a fresh node and loading that node
with the offset `d` into a track without keys returns success and yields as many keys as `t`
has; key `i` has the time `fadd time d` and the value `(fadd x d, y)` of key `i` of `t`, the
same `ds` and `dd`, and the flags masked with the tangent-in and tangent-out masks.  With
`d = 0` the time and the value of a key are reproduced exactly when they are binary32
values.  With `assert` active the two calls return, with this result, exactly when every key
of `t` satisfies `key.time == key.value.x`; otherwise the assertion of the save fails. -/
theorem SerializeSelection_save_load_roundtrip (E : Externals) (t t0 : TUiAnimSplineTrack)
    (fTimeOffset : float)
    (hshift : List.Pairwise
      (fun a b : SplineKey => fadd a.time fTimeOffset < fadd b.time fTimeOffset) t.m_spline)
    (_hfin : ∀ k ∈ t.m_spline,
      finiteBinary32 (k.time + fTimeOffset) ∧ finiteBinary32 (k.value.x + fTimeOffset))
    (hempty : t0.m_spline = []) :
    (selectionSaveThenLoad E t t0 fTimeOffset).1 = true ∧
    (selectionSaveThenLoad E t t0 fTimeOffset).2.1.GetNumKeys = t.GetNumKeys ∧
    (∀ (i : Nat) (k : SplineKey), t.m_spline[i]? = some k →
      ∃ k1, (selectionSaveThenLoad E t t0 fTimeOffset).2.1.m_spline[i]? = some k1 ∧
        k1.time = fadd k.time fTimeOffset ∧
        k1.value = ⟨fadd k.value.x fTimeOffset, k.value.y⟩ ∧
        k1.ds = k.ds ∧ k1.dd = k.dd ∧
        k1.flags = k.flags &&&
          (E.SPLINE_KEY_TANGENT_IN_MASK ||| E.SPLINE_KEY_TANGENT_OUT_MASK) ∧
        (fTimeOffset = 0 → roundBinary32 k.time = k.time →
          roundBinary32 k.value.x = k.value.x → k1.time = k.time ∧ k1.value = k.value)) ∧
    ((∀ k ∈ t.m_spline, k.time = k.value.x) →
      selectionSaveThenLoad_call E t t0 fTimeOffset =
        CallOutcome.returned (selectionSaveThenLoad E t t0 fTimeOffset)) ∧
    (¬ (∀ k ∈ t.m_spline, k.time = k.value.x) →
      selectionSaveThenLoad_call E t t0 fTimeOffset = CallOutcome.assertionFailed) := by
  obtain ⟨_, _, hsave⟩ := SerializeSelection_save_eq E t XmlNode.empty false 0
  have htype : (SerializeSelection E t XmlNode.empty false false 0).2.2.TrackType =
      some (GetCurveType E) := by rw [hsave]
  have hch : (SerializeSelection E t XmlNode.empty false false 0).2.2.children =
      t.m_spline.map (fun k => SerializeSelection_keyNode E ⟨k.time, k.flags, k.value⟩ k) := by
    rw [hsave]
    simp [XmlNode.empty]
  obtain ⟨hok, hkeys⟩ := SerializeSelection_load_eq E t0
    (SerializeSelection E t XmlNode.empty false false 0).2.2 false fTimeOffset htype
  have hmapped : List.Sorted (fun a b : SplineKey => a.time ≤ b.time)
      (t.m_spline.map (fun k : SplineKey =>
        ({ time := fadd k.time fTimeOffset,
           flags := k.flags &&&
             (E.SPLINE_KEY_TANGENT_IN_MASK ||| E.SPLINE_KEY_TANGENT_OUT_MASK),
           value := ⟨fadd k.value.x fTimeOffset, k.value.y⟩,
           ds := k.ds,
           dd := k.dd } : SplineKey))) := by
    rw [List.Sorted, List.pairwise_map]
    refine hshift.imp ?_
    intro a b hab
    exact le_of_lt hab
  have hres : (selectionSaveThenLoad E t t0 fTimeOffset).2.1.m_spline =
      t.m_spline.map (fun k : SplineKey =>
        ({ time := fadd k.time fTimeOffset,
           flags := k.flags &&&
             (E.SPLINE_KEY_TANGENT_IN_MASK ||| E.SPLINE_KEY_TANGENT_OUT_MASK),
           value := ⟨fadd k.value.x fTimeOffset, k.value.y⟩,
           ds := k.ds,
           dd := k.dd } : SplineKey)) := by
    unfold selectionSaveThenLoad
    rw [hkeys, hempty, List.nil_append, hch, List.map_map]
    have hfun : (KeyNode.toPastedKey E false fTimeOffset ∘
        fun k => SerializeSelection_keyNode E ⟨k.time, k.flags, k.value⟩ k) =
        (fun k : SplineKey =>
          ({ time := fadd k.time fTimeOffset,
             flags := k.flags &&&
               (E.SPLINE_KEY_TANGENT_IN_MASK ||| E.SPLINE_KEY_TANGENT_OUT_MASK),
             value := ⟨fadd k.value.x fTimeOffset, k.value.y⟩,
             ds := k.ds,
             dd := k.dd } : SplineKey)) := by
      funext k
      exact toPastedKey_SerializeSelection_keyNode E fTimeOffset k
    rw [hfun]
    exact List.Sorted.insertionSort_eq hmapped
  have hasserts : (∀ k ∈ t.m_spline, k.time = k.value.x) →
      ∀ e ∈ (SerializeSelection E t XmlNode.empty false false 0).2.2.children,
        SerializeSelection_loadKey_assert e = true := by
    intro hinv e he
    rw [hch, List.mem_map] at he
    obtain ⟨k, hk, rfl⟩ := he
    rw [SerializeSelection_keyNode_assert]
    exact decide_eq_true (hinv k hk)
  refine ⟨hok, by simp [GetNumKeys, hres], ?_, ?_, ?_⟩
  · intro i k hk
    refine ⟨{ time := fadd k.time fTimeOffset,
              flags := k.flags &&&
                (E.SPLINE_KEY_TANGENT_IN_MASK ||| E.SPLINE_KEY_TANGENT_OUT_MASK),
              value := ⟨fadd k.value.x fTimeOffset, k.value.y⟩,
              ds := k.ds,
              dd := k.dd },
      by rw [hres, List.getElem?_map, hk]; rfl, rfl, rfl, rfl, rfl, rfl, ?_⟩
    intro h0 h1 h2
    subst h0
    obtain ⟨tm, fl, ⟨x, y⟩, ds, dd⟩ := k
    simp only [fadd_zero] at *
    simp [h1, h2]
  · intro hinv
    unfold selectionSaveThenLoad_call selectionSaveThenLoad
    rw [(SerializeSelection_call_save E t XmlNode.empty false 0).1 hinv]
    exact (SerializeSelection_call_load E t0 _ false fTimeOffset htype).1 (hasserts hinv)
  · intro hinv
    unfold selectionSaveThenLoad_call
    rw [(SerializeSelection_call_save E t XmlNode.empty false 0).2 hinv]

theorem SerializeSelection_save_load_roundtrip_witness :
    List.Pairwise (fun a b : SplineKey => fadd a.time 5 < fadd b.time 5) track012.m_spline ∧
    (∀ k ∈ track012.m_spline,
      finiteBinary32 (k.time + 5) ∧ finiteBinary32 (k.value.x + 5)) ∧
    (new engine).m_spline = [] ∧
    (selectionSaveThenLoad engine track012 (new engine) 5).1 = true ∧
    (selectionSaveThenLoad engine track012 (new engine) 5).2.1.GetNumKeys =
      track012.GetNumKeys ∧
    (selectionSaveThenLoad engine track012 (new engine) 5).2.1.m_spline =
      [ { time := 5, flags := 0, value := ⟨5, 3⟩, ds := 0, dd := 0 },
        { time := 6, flags := 9, value := ⟨6, 7⟩, ds := 1 / 2, dd := 1 / 4 },
        { time := 7, flags := 0, value := ⟨7, 5⟩, ds := 0, dd := 0 } ] ∧
    selectionSaveThenLoad_call engine track012 (new engine) 5 =
      CallOutcome.returned (selectionSaveThenLoad engine track012 (new engine) 5) :=
  ⟨by decide!, by decide!, rfl,
   (SerializeSelection_save_load_roundtrip engine track012 (new engine) 5 (by decide!)
     (by decide!) rfl).1,
   (SerializeSelection_save_load_roundtrip engine track012 (new engine) 5 (by decide!)
     (by decide!) rfl).2.1,
   by decide!,
   (SerializeSelection_save_load_roundtrip engine track012 (new engine) 5 (by decide!)
     (by decide!) rfl).2.2.2.1 (by decide!)⟩

end UiAnim
